import Mathlib

/-!
Verification development for a distributed cloud storage system consisting of
a controller (clean_controller.py) that tracks storage nodes and file
metadata, and an orchestration layer (app.py) that splits files into chunks,
stripes chunk replicas across nodes and reconstructs files on download.

The controller state (node registry, file catalog, forced-offline and blocked
sets) is embedded as a pure state type, Python dicts become association lists
preserving insertion order, and each message handler becomes a pure function
from state and message fields to a response and a new state.  Machine
integers are modelled as Int (sizes, counters) and Nat (timestamps in time
units); Python floor division // on ints is Int.fdiv.
-/

namespace CloudStore

/-! ### Data model: NodeInfo and FileInfo dataclasses -/

/-- Embedding of the NodeInfo dataclass of clean_controller.py. -/
structure NodeInfo where
  node_id : String
  host : String
  port : Nat
  cpu_cores : Int
  memory_gb : Int
  storage_gb : Int
  bandwidth_mbps : Int
  used_storage : Int
  active_transfers : Int
  last_seen : Nat
  status : String
deriving DecidableEq, Repr

/-- NodeInfo.get_available_storage: storage_gb * 1024 cubed minus used_storage. -/
def NodeInfo.get_available_storage (n : NodeInfo) : Int :=
  n.storage_gb * 1024 ^ 3 - n.used_storage

/-- Embedding of the FileInfo dataclass of clean_controller.py. -/
structure FileInfo where
  file_id : String
  file_name : String
  file_size : Int
  owner_node : String
  replica_nodes : List String
  created_at : Nat
  chunk_size : Int
  total_chunks : Int
  is_uploaded : Bool
deriving DecidableEq, Repr

/-- FileInfo construction including the dataclass defaults
(chunk_size 1 MiB, total_chunks 0, is_uploaded false) and the
post-init step: total_chunks is recomputed as
(file_size + chunk_size - 1) // chunk_size when it is 0, and
replica_nodes defaults to the singleton owner list when empty. -/
def mkFileInfo (file_id file_name : String) (file_size : Int)
    (owner_node : String) (replica_nodes : List String) (created_at : Nat)
    (chunk_size : Int) (total_chunks : Int) (is_uploaded : Bool) : FileInfo :=
  { file_id := file_id
    file_name := file_name
    file_size := file_size
    owner_node := owner_node
    replica_nodes := if replica_nodes = [] then [owner_node] else replica_nodes
    created_at := created_at
    chunk_size := chunk_size
    total_chunks :=
      if total_chunks = 0 then (file_size + chunk_size - 1).fdiv chunk_size
      else total_chunks
    is_uploaded := is_uploaded }

/-- mkFileInfo with every dataclass default filled in, as used by
_handle_file_created which passes only the five explicit fields. -/
def mkFileInfoDefault (file_id file_name : String) (file_size : Int)
    (owner_node : String) (replica_nodes : List String) (created_at : Nat) :
    FileInfo :=
  mkFileInfo file_id file_name file_size owner_node replica_nodes created_at
    (1024 * 1024) 0 false

/-! ### Python dict and set semantics over association lists -/

/-- Lookup in a Python dict modelled as an association list. -/
def dictGet {α : Type} : List (String × α) → String → Option α
  | [], _ => none
  | (k', v') :: rest, k => if k' = k then some v' else dictGet rest k

/-- Assignment d[k] = v in a Python dict: replace in place when the key is
present (dict update keeps insertion position), append otherwise. -/
def dictInsert {α : Type} : List (String × α) → String → α → List (String × α)
  | [], k, v => [(k, v)]
  | (k', v') :: rest, k, v =>
    if k' = k then (k, v) :: rest else (k', v') :: dictInsert rest k v

/-- del d[k] in a Python dict. -/
def dictErase {α : Type} : List (String × α) → String → List (String × α)
  | [], _ => []
  | (k', v') :: rest, k => if k' = k then rest else (k', v') :: dictErase rest k

/-- In-place mutation of the value stored under a key, a no-op when the key
is absent (models pattern: if k in d: mutate d[k]). -/
def dictUpdate {α : Type} : List (String × α) → String → (α → α) →
    List (String × α)
  | [], _, _ => []
  | (k', v') :: rest, k, f =>
    if k' = k then (k, f v') :: rest else (k', v') :: dictUpdate rest k f

/-- Python set.add on a membership-only set modelled as a list. -/
def setAdd (s : List String) (x : String) : List String :=
  if x ∈ s then s else s ++ [x]

/-- Python set.discard. -/
def setDiscard (s : List String) (x : String) : List String :=
  s.filter (fun y => y ≠ x)

/-! ### Basic dictionary lemmas -/

theorem dictGet_insert_self {α : Type} (l : List (String × α)) (k : String)
    (v : α) : dictGet (dictInsert l k v) k = some v := by
  induction l with
  | nil => simp [dictInsert, dictGet]
  | cons p rest ih =>
    by_cases h : p.1 = k
    · simp [dictInsert, dictGet, h]
    · simp [dictInsert, dictGet, h, ih]

theorem dictGet_insert_ne {α : Type} (l : List (String × α)) (k k' : String)
    (v : α) (h : k ≠ k') : dictGet (dictInsert l k v) k' = dictGet l k' := by
  induction l with
  | nil => simp [dictInsert, dictGet, h]
  | cons p rest ih =>
    by_cases hp : p.1 = k
    · simp [dictInsert, dictGet, hp, h]
    · simp [dictInsert, dictGet, hp, ih]

theorem dictGet_update_self {α : Type} (l : List (String × α)) (k : String)
    (f : α → α) :
    dictGet (dictUpdate l k f) k = (dictGet l k).map f := by
  induction l with
  | nil => simp [dictUpdate, dictGet]
  | cons p rest ih =>
    by_cases h : p.1 = k
    · simp [dictUpdate, dictGet, h]
    · simp [dictUpdate, dictGet, h, ih]

theorem dictGet_update_ne {α : Type} (l : List (String × α)) (k k' : String)
    (f : α → α) (h : k ≠ k') :
    dictGet (dictUpdate l k f) k' = dictGet l k' := by
  induction l with
  | nil => simp [dictUpdate, dictGet]
  | cons p rest ih =>
    by_cases hp : p.1 = k
    · subst hp
      simp [dictUpdate, dictGet, h, Ne.symm h]
    · simp [dictUpdate, dictGet, hp, ih]

theorem dictGet_eq_none_of_not_mem {α : Type} (l : List (String × α))
    (k : String) (h : k ∉ l.map Prod.fst) : dictGet l k = none := by
  induction l with
  | nil => rfl
  | cons p rest ih =>
    simp only [List.map_cons, List.mem_cons, not_or] at h
    simp only [dictGet, if_neg (fun hc : p.1 = k => h.1 hc.symm)]
    exact ih h.2

theorem dictGet_erase_self {α : Type} (l : List (String × α)) (k : String)
    (hnd : (l.map Prod.fst).Nodup) :
    dictGet (dictErase l k) k = none := by
  induction l with
  | nil => rfl
  | cons p rest ih =>
    simp only [List.map_cons, List.nodup_cons] at hnd
    by_cases h : p.1 = k
    · simp only [dictErase, if_pos h]
      exact dictGet_eq_none_of_not_mem rest k (h ▸ hnd.1)
    · simp only [dictErase, if_neg h, dictGet, if_neg h]
      exact ih hnd.2

theorem dictGet_erase_ne {α : Type} (l : List (String × α)) (k k' : String)
    (h : k ≠ k') :
    dictGet (dictErase l k) k' = dictGet l k' := by
  induction l with
  | nil => rfl
  | cons p rest ih =>
    by_cases hp : p.1 = k
    · have hk' : p.1 ≠ k' := fun hc => h (hp.symm.trans hc)
      simp only [dictErase, if_pos hp, dictGet, if_neg hk']
    · simp only [dictErase, if_neg hp, dictGet]
      by_cases hp' : p.1 = k'
      · simp [hp']
      · simp only [if_neg hp']
        exact ih

/-! ### Controller state and configuration constants -/

/-- Mutable state of CleanController relevant to message handling: the node
registry, the file catalog, and the forced-offline and blocked node sets. -/
structure CState where
  nodes : List (String × NodeInfo)
  files : List (String × FileInfo)
  forced_offline : List String
  blocked_nodes : List String
deriving DecidableEq, Repr

/-- CleanController.default_replication_factor. -/
def defaultReplicationFactor : Nat := 2

/-- CleanController.min_nodes_for_replication. -/
def minNodesForReplication : Nat := 2

/-- Heartbeat timeout threshold (timeout = 30 in _heartbeat_checker). -/
def heartbeatTimeout : Nat := 30

/-- Sleep period of the _heartbeat_checker loop (time.sleep(10)). -/
def sweepInterval : Nat := 10

/-- Wire responses: a status string (OK, ACK or ERROR) plus the payload
fields the claims inspect (error text and the selected download source). -/
structure Response where
  status : String
  error : String
  message : String
  source_node : String
deriving DecidableEq, Repr

def okResp (msg : String) : Response :=
  { status := "OK", error := "", message := msg, source_node := "" }

def errResp (e : String) : Response :=
  { status := "ERROR", error := e, message := "", source_node := "" }

def ackResp : Response :=
  { status := "ACK", error := "", message := "", source_node := "" }

/-! ### Handlers of clean_controller.py -/

/-- Reconciliation loop of _handle_register: sum the size of every catalog
file whose replica_nodes contains the registering node id. -/
def computeUsedStorage (files : List (String × FileInfo)) (node_id : String) :
    Int :=
  files.foldl
    (fun acc q => if node_id ∈ q.2.replica_nodes then acc + q.2.file_size
      else acc) 0

/-- _handle_register: reject on a missing resource field or a blocked node
id, otherwise create or overwrite the registry entry with used_storage
recomputed from the catalog, status active and last_seen now. -/
def handleRegister (now : Nat) (st : CState) (node_id host : String)
    (port : Nat) (cpu mem stor bw : Option Int) : Response × CState :=
  match cpu, mem, stor, bw with
  | some c, some m, some s, some b =>
    if node_id ∈ st.blocked_nodes then
      (errResp "Node is blocked from registering", st)
    else
      let used := computeUsedStorage st.files node_id
      let n : NodeInfo :=
        { node_id := node_id, host := host, port := port, cpu_cores := c
          memory_gb := m, storage_gb := s, bandwidth_mbps := b
          used_storage := used, active_transfers := 0, last_seen := now
          status := "active" }
      (okResp "Registration successful",
        { st with nodes := dictInsert st.nodes node_id n })
  | _, _, _, _ => (errResp "Missing required resource", st)

/-- _handle_heartbeat: unknown node errors; a forced-offline node is
acknowledged without any update; otherwise last_seen is refreshed, reported
used_storage and active_transfers are clamped at zero when numeric (None or
non-numeric reports leave the stored value unchanged, modelled as none), and
an inactive node flips back to active. -/
def handleHeartbeat (now : Nat) (st : CState) (node_id : String)
    (hb_used hb_transfers : Option Int) : Response × CState :=
  match dictGet st.nodes node_id with
  | none => (errResp "Node not registered", st)
  | some _ =>
    if node_id ∈ st.forced_offline then (ackResp, st)
    else
      let upd : NodeInfo → NodeInfo := fun n =>
        let n := { n with last_seen := now }
        let n := match hb_used with
          | some u => { n with used_storage := max 0 u }
          | none => n
        let n := match hb_transfers with
          | some t => { n with active_transfers := max 0 t }
          | none => n
        if n.status = "inactive" then { n with status := "active" } else n
      (ackResp, { st with nodes := dictUpdate st.nodes node_id upd })

/-- _select_replica_nodes: candidates are the registry entries in insertion
order that are not the owner, are active and have strictly positive available
storage; they are stably sorted by descending available storage (Python
list.sort with key minus available is stable, embedded as insertionSort with
a non-strict descending relation) and the first replication_factor - 1 ids
are returned. -/
def replicaCandidates (nodes : List (String × NodeInfo))
    (owner_node : String) : List (String × Int) :=
  (nodes.filter (fun p => p.1 ≠ owner_node ∧ p.2.status = "active" ∧
      0 < p.2.get_available_storage)).map
    (fun p => (p.1, p.2.get_available_storage))

def selectReplicaNodes (nodes : List (String × NodeInfo))
    (owner_node : String) (replication_factor : Nat) : List String :=
  let sorted := List.insertionSort (fun a b : String × Int => b.2 ≤ a.2)
    (replicaCandidates nodes owner_node)
  (sorted.take (replication_factor - 1)).map Prod.fst

/-- _schedule_file_upload: mark the file uploaded; when the total number of
registry entries reaches min_nodes_for_replication, select replica nodes,
extend replica_nodes with them, deduplicate (Python list(set(..)) keeps one
occurrence of each id in unspecified order, embedded as List.dedup; the
claims only inspect membership), and add the file size to the used_storage
of every selected node present in the registry. -/
def scheduleFileUpload (nodes : List (String × NodeInfo)) (fi : FileInfo) :
    List (String × NodeInfo) × FileInfo :=
  let fi := { fi with is_uploaded := true }
  if minNodesForReplication ≤ nodes.length then
    let selected := selectReplicaNodes nodes fi.owner_node
      defaultReplicationFactor
    let fi2 := { fi with replica_nodes := (fi.replica_nodes ++ selected).dedup }
    let nodes2 := selected.foldl
      (fun ns n => dictUpdate ns n
        (fun info => { info with
          used_storage := info.used_storage + fi.file_size })) nodes
    (nodes2, fi2)
  else (nodes, fi)

/-- _handle_file_created: build the FileInfo record with replica_nodes
[owner] and created_at now, store it, add its size to the used_storage of
the reporting node when registered, then run _schedule_file_upload whose
mutations of the shared record and registry are folded back into the state. -/
def handleFileCreated (now : Nat) (st : CState) (node_id : String)
    (f_id f_name : String) (f_size : Int) (f_owner : String) :
    Response × CState :=
  let fr := mkFileInfoDefault f_id f_name f_size f_owner [f_owner] now
  let nodes1 := dictUpdate st.nodes node_id
    (fun n => { n with used_storage := n.used_storage + fr.file_size })
  let sched := scheduleFileUpload nodes1 fr
  (ackResp,
    { st with nodes := sched.1
              files := dictInsert st.files fr.file_id sched.2 })

/-- _select_best_source_node on a non-empty list: Python min with an
active_transfers key returns the first element attaining the minimum. -/
def selectBestSource (l : List (String × NodeInfo)) :
    Option (String × NodeInfo) :=
  match l with
  | [] => none
  | x :: xs =>
    some (xs.foldl
      (fun best q =>
        if q.2.active_transfers < best.2.active_transfers then q else best) x)

/-- The online replica list of _handle_download_request: replica_nodes
entries that are registered and active, in replica list order. -/
def onlineReplicas (st : CState) (fi : FileInfo) :
    List (String × NodeInfo) :=
  fi.replica_nodes.filterMap (fun nid =>
    match dictGet st.nodes nid with
    | some n => if n.status = "active" then some (nid, n) else none
    | none => none)

/-- _handle_download_request: missing file and no-online-replica requests
return errors without touching any state; otherwise the least-loaded online
replica is chosen as source and active_transfers is incremented on the
source and, when registered, on the requesting node. -/
def handleDownloadRequest (st : CState) (requesting_node file_id : String) :
    Response × CState :=
  match dictGet st.files file_id with
  | none => (errResp "File not found", st)
  | some fi =>
    match selectBestSource (onlineReplicas st fi) with
    | none => (errResp "No online replicas available", st)
    | some src =>
      let nodes1 := dictUpdate st.nodes src.1
        (fun n => { n with active_transfers := n.active_transfers + 1 })
      let nodes2 :=
        if (dictGet nodes1 requesting_node).isSome then
          dictUpdate nodes1 requesting_node
            (fun n => { n with active_transfers := n.active_transfers + 1 })
        else nodes1
      ({ status := "OK", error := "", message := "", source_node := src.1 },
        { st with nodes := nodes2 })

/-- _handle_transfer_complete: decrement active_transfers of the reporting
node floored at zero; for a completed download of a known file, the
reporting node (when registered) gains the file size in used_storage and is
appended to replica_nodes when absent. -/
def handleTransferComplete (st : CState) (node_id : String)
    (file_id : Option String) (transfer_type : String) : Response × CState :=
  let nodes1 := dictUpdate st.nodes node_id
    (fun n => { n with active_transfers := max 0 (n.active_transfers - 1) })
  let st1 := { st with nodes := nodes1 }
  let st2 :=
    if transfer_type = "download" then
      match file_id with
      | none => st1
      | some fid =>
        match dictGet st1.files fid with
        | none => st1
        | some fi =>
          match dictGet st1.nodes node_id with
          | none => st1
          | some _ =>
            let fi2 :=
              if node_id ∈ fi.replica_nodes then fi
              else { fi with replica_nodes := fi.replica_nodes ++ [node_id] }
            { st1 with
              nodes := dictUpdate st1.nodes node_id
                (fun n => { n with
                  used_storage := n.used_storage + fi.file_size })
              files := dictInsert st1.files fid fi2 }
    else st1
  (okResp "Transfer completion recorded", st2)

/-- _handle_force_offline: toggle a known node between an administratively
forced offline state and active. -/
def handleForceOffline (now : Nat) (st : CState) (node_id : String) :
    Response × CState :=
  match dictGet st.nodes node_id with
  | none => (errResp "Node not found", st)
  | some n =>
    if node_id ∈ st.forced_offline ∨ n.status ≠ "active" then
      (okResp "Node is now online",
        { st with
          forced_offline := setDiscard st.forced_offline node_id
          nodes := dictUpdate st.nodes node_id
            (fun m => { m with status := "active", last_seen := now }) })
    else
      (okResp "Node is now offline",
        { st with
          forced_offline := setAdd st.forced_offline node_id
          nodes := dictUpdate st.nodes node_id
            (fun m => { m with status := "inactive", last_seen := 0 }) })

/-- _handle_delete_node: a registered node is removed from the registry and
added to both the forced-offline and blocked sets; an unknown node id is
only added to the blocked set; both paths report success. -/
def handleDeleteNode (st : CState) (node_id : Option String) :
    Response × CState :=
  match node_id with
  | none => (errResp "node_id required", st)
  | some nid =>
    if nid = "" then (errResp "node_id required", st)
    else if (dictGet st.nodes nid).isSome then
      (okResp "Node deleted",
        { st with
          forced_offline := setAdd st.forced_offline nid
          nodes := dictErase st.nodes nid
          blocked_nodes := setAdd st.blocked_nodes nid })
    else
      (okResp "Node deleted",
        { st with blocked_nodes := setAdd st.blocked_nodes nid })

/-- _handle_unblock_node: discard the id from the blocked and forced-offline
sets. -/
def handleUnblockNode (st : CState) (node_id : Option String) :
    Response × CState :=
  match node_id with
  | none => (errResp "node_id required", st)
  | some nid =>
    if nid = "" then (errResp "node_id required", st)
    else
      (okResp "Unblocked",
        { st with
          blocked_nodes := setDiscard st.blocked_nodes nid
          forced_offline := setDiscard st.forced_offline nid })

/-- _handle_delete_file: on a known file, subtract its size (floored at
zero) from the used_storage of every registered replica node and remove the
catalog entry; otherwise report a not-found error. -/
def handleDeleteFile (st : CState) (file_id : Option String) :
    Response × CState :=
  match file_id with
  | none => (errResp "file_id required", st)
  | some fid =>
    if fid = "" then (errResp "file_id required", st)
    else
      match dictGet st.files fid with
      | some fi =>
        let nodes2 := fi.replica_nodes.foldl
          (fun ns nid => dictUpdate ns nid
            (fun n => { n with
              used_storage := max 0 (n.used_storage - fi.file_size) })) st.nodes
        (okResp "File deleted from controller",
          { st with nodes := nodes2, files := dictErase st.files fid })
      | none => (errResp "File not found in controller", st)

/-! ### Liveness sweep (_heartbeat_checker body) -/

/-- Status transition applied to one node by a sweep at time now: an active
node whose last_seen is more than heartbeatTimeout in the past flips to
inactive.  Nat subtraction agrees with the Python float comparison because a
last_seen in the future makes both comparisons false. -/
def sweepNode (now : Nat) (n : NodeInfo) : NodeInfo :=
  if heartbeatTimeout < now - n.last_seen ∧ n.status = "active" then
    { n with status := "inactive" }
  else n

/-- Ids collected into nodes_went_offline during one sweep, in registry
order. -/
def sweepBatch (now : Nat) (nodes : List (String × NodeInfo)) : List String :=
  nodes.filterMap (fun p =>
    if heartbeatTimeout < now - p.2.last_seen ∧ p.2.status = "active" then
      some p.1
    else none)

/-- One pass of the _heartbeat_checker loop: flip every timed-out active
node to inactive, collect the failure batch, and call the failure-handling
hook _handle_node_failures once when the batch is non-empty; the third
component counts the hook invocations of this pass. -/
def heartbeatSweep (now : Nat) (st : CState) : CState × List String × Nat :=
  let batch := sweepBatch now st.nodes
  ({ st with nodes := st.nodes.map (fun p => (p.1, sweepNode now p.2)) },
    batch, if batch = [] then 0 else 1)

/-! ### Chunked transfer coordinator (app.py)

Files are byte sequences modelled as lists of byte values; only splitting
and concatenation matter to the claims, so bytes are plain naturals. -/

/-- app.py CHUNK_SIZE = 1024 * 1024. -/
def CHUNK_SIZE : Nat := 1024 * 1024

/-- app.py CHUNK_REPLICATION = 2 (upload_file). -/
def CHUNK_REPLICATION : Nat := 2

/-- Chunk split loop of upload_file: file_data[i:i+c] for i = 0, c, 2c, ...
Python range with step 0 raises, so a zero chunk size yields no chunks here;
all claims assume a positive chunk size. -/
def splitChunks (data : List Nat) (c : Nat) : List (List Nat) :=
  if h : data = [] ∨ c = 0 then []
  else
    data.take c :: splitChunks (data.drop c) c
termination_by data.length
decreasing_by
  simp only [not_or] at h
  have h1 : 0 < data.length := List.length_pos.mpr h.1
  have h2 : 0 < c := Nat.pos_of_ne_zero h.2
  simp only [List.length_drop]
  omega

/-- Bytes of chunk i: file_data[i*c : i*c+c]. -/
def chunkAt (data : List Nat) (c i : Nat) : List Nat :=
  (data.drop (i * c)).take c

/-- Chunk replica assignment of upload_file: with the deterministically
shuffled candidate list, chunk i is assigned min(CHUNK_REPLICATION, N)
nodes starting at offset (i * min(repl, N)) mod N, taken cyclically. -/
def assignChunkNodes (shuffled : List String) (repl i : Nat) : List String :=
  let n := shuffled.length
  if n = 0 then []
  else
    let maxRepl := min repl n
    let start := (i * maxRepl) % n
    (List.range maxRepl).map (fun r => shuffled.getD ((start + r) % n) "")

/-- Replica assignment as the claim words it: the nodes
shuffled[(i*R) mod N], onward, taken cyclically for min(R, N) slots. -/
def claimAssignChunkNodes (shuffled : List String) (repl i : Nat) :
    List String :=
  let n := shuffled.length
  (List.range (min repl n)).map
    (fun r => shuffled.getD ((i * repl + r) % n) "")

/-- Post-upload chunk storage: node nd holds the bytes of chunk i exactly
when it is among the chunk assignees and the physical write succeeded and
the bytes are still readable, which the parameter avail abstracts; a
successful read always yields the exact chunk bytes written at upload. -/
def uploadStore (data : List Nat) (c : Nat) (assigned : Nat → List String)
    (avail : String → Nat → Bool) (nd : String) (i : Nat) :
    Option (List Nat) :=
  if nd ∈ assigned i ∧ avail nd i = true then some (chunkAt data c i)
  else none

/-- Reconstruction of one chunk in download_file: try the assigned nodes in
order and return the first successful read. -/
def readChunk (store : String → Nat → Option (List Nat))
    (nds : List String) (i : Nat) : Option (List Nat) :=
  match nds with
  | [] => none
  | nd :: rest =>
    match store nd i with
    | some b => some b
    | none => readChunk store rest i

/-- Reconstruction loop of download_file: chunk records sorted by index are
the indices 0 .. total-1 in order; each chunk is read from the first
assigned node that has it and the bytes are concatenated; a chunk no
assigned node can provide fails the whole download. -/
def reconstructFile (store : String → Nat → Option (List Nat))
    (assigned : Nat → List String) (total : Nat) : Option (List Nat) :=
  (List.range total).foldl
    (fun acc i =>
      match acc, readChunk store (assigned i) i with
      | some bs, some b => some (bs ++ b)
      | _, _ => none)
    (some [])

/-! ### Chunking lemmas -/

theorem splitChunks_nil (c : Nat) : splitChunks [] c = [] := by
  rw [splitChunks]
  simp

theorem splitChunks_cons (data : List Nat) (c : Nat) (hd : data ≠ [])
    (hc : c ≠ 0) :
    splitChunks data c = data.take c :: splitChunks (data.drop c) c := by
  rw [splitChunks]
  simp [hd, hc]

theorem splitChunks_join (c : Nat) (hc : c ≠ 0) (data : List Nat) :
    (splitChunks data c).flatten = data := by
  by_cases hd : data = []
  · subst hd
    simp [splitChunks_nil]
  · rw [splitChunks_cons data c hd hc, List.flatten_cons,
      splitChunks_join c hc (data.drop c), List.take_append_drop]
termination_by data.length
decreasing_by
  have h1 : 0 < data.length := List.length_pos.mpr hd
  have h2 : 0 < c := Nat.pos_of_ne_zero hc
  simp only [List.length_drop]
  omega

theorem ceil_chunks_step (len c : Nat) (hl : 1 ≤ len) (hc : 1 ≤ c) :
    (len - c + c - 1) / c + 1 = (len + c - 1) / c := by
  rcases le_or_lt len c with h | h
  · have e1 : len - c + c - 1 = c - 1 := by omega
    have e2 : len + c - 1 = len - 1 + c := by omega
    rw [e1, e2, Nat.add_div_right _ hc, Nat.div_eq_of_lt (by omega),
      Nat.div_eq_of_lt (by omega)]
  · have e1 : len - c + c - 1 = len - 1 := by omega
    have e2 : len + c - 1 = len - 1 + c := by omega
    rw [e1, e2, Nat.add_div_right _ hc]

theorem splitChunks_length (c : Nat) (hc : c ≠ 0) (data : List Nat) :
    (splitChunks data c).length = (data.length + c - 1) / c := by
  by_cases hd : data = []
  · subst hd
    simp [splitChunks_nil]
    rw [Nat.div_eq_of_lt (by omega)]
  · rw [splitChunks_cons data c hd hc]
    simp only [List.length_cons, splitChunks_length c hc (data.drop c),
      List.length_drop]
    exact ceil_chunks_step data.length c
      (List.length_pos.mpr hd) (Nat.pos_of_ne_zero hc)
termination_by data.length
decreasing_by
  have h1 : 0 < data.length := List.length_pos.mpr hd
  have h2 : 0 < c := Nat.pos_of_ne_zero hc
  simp only [List.length_drop]
  omega

theorem chunkAt_zero (data : List Nat) (c : Nat) :
    chunkAt data c 0 = data.take c := by
  simp [chunkAt]

theorem chunkAt_succ (data : List Nat) (c i : Nat) :
    chunkAt data c (i + 1) = chunkAt (data.drop c) c i := by
  simp only [chunkAt, List.drop_drop]
  congr 1
  ring

theorem splitChunks_eq_map_range (c : Nat) (hc : c ≠ 0) (data : List Nat) :
    splitChunks data c =
      (List.range ((data.length + c - 1) / c)).map (chunkAt data c) := by
  by_cases hd : data = []
  · subst hd
    rw [splitChunks_nil]
    simp only [List.length_nil]
    rw [Nat.div_eq_of_lt (by omega)]
    simp
  · rw [splitChunks_cons data c hd hc]
    have hstep := ceil_chunks_step data.length c
      (List.length_pos.mpr hd) (Nat.pos_of_ne_zero hc)
    rw [← hstep, List.range_succ_eq_map, List.map_cons, List.map_map]
    rw [splitChunks_eq_map_range c hc (data.drop c), chunkAt_zero,
      List.length_drop]
    congr 1
    apply List.map_congr_left
    intro i _
    simp only [Function.comp_apply, Nat.succ_eq_add_one]
    exact (chunkAt_succ data c i).symm
termination_by data.length
decreasing_by
  have h1 : 0 < data.length := List.length_pos.mpr hd
  have h2 : 0 < c := Nat.pos_of_ne_zero hc
  simp only [List.length_drop]
  omega

theorem readChunk_uploadStore (data : List Nat) (c : Nat)
    (assigned : Nat → List String) (avail : String → Nat → Bool) (i : Nat) :
    ∀ nds : List String, (∀ nd ∈ nds, nd ∈ assigned i) →
      (∃ nd ∈ nds, avail nd i = true) →
      readChunk (uploadStore data c assigned avail) nds i =
        some (chunkAt data c i) := by
  intro nds
  induction nds with
  | nil =>
    intro _ hex
    rcases hex with ⟨nd, hmem, _⟩
    cases hmem
  | cons nd rest ih =>
    intro hsub hex
    by_cases hav : avail nd i = true
    · have hmem : nd ∈ assigned i := hsub nd (List.mem_cons_self nd rest)
      simp [readChunk, uploadStore, hmem, hav]
    · have hnone : uploadStore data c assigned avail nd i = none := by
        simp [uploadStore, hav]
      simp only [readChunk, hnone]
      apply ih (fun x hx => hsub x (List.mem_cons_of_mem _ hx))
      rcases hex with ⟨nd', hmem', hav'⟩
      rcases List.mem_cons.mp hmem' with rfl | h'
      · exact absurd hav' hav
      · exact ⟨nd', h', hav'⟩

theorem reconstruct_of_reads_aux (g : Nat → List Nat)
    (store : String → Nat → Option (List Nat))
    (assigned : Nat → List String) (total : Nat)
    (h : ∀ i < total, readChunk store (assigned i) i = some (g i)) :
    reconstructFile store assigned total =
      some ((List.range total).map g).flatten := by
  induction total with
  | zero => simp [reconstructFile]
  | succ t ih =>
    have hh : ∀ i < t, readChunk store (assigned i) i = some (g i) :=
      fun i hi => h i (Nat.lt_succ_of_lt hi)
    have hres := ih hh
    unfold reconstructFile at hres ⊢
    rw [List.range_succ, List.foldl_append, hres, List.map_append,
      List.flatten_append]
    simp [h t (Nat.lt_succ_self t)]

/-! ### Claim C1: chunk count and upload/download round trip -/

/-- C1: for every file of size S split into chunks of size C, the computed
total_chunks equals ceil(S/C) (both in the FileInfo metadata computed by
FileInfo post-init and in the actual chunk list produced by the upload
split loop), and, provided every chunk index is readable from at least one
of its assigned nodes, the download reconstruction (chunk records in index
order, each chunk read from the first assigned node that has it, bytes
concatenated in index order) reproduces exactly the original byte
sequence. -/
theorem chunk_roundtrip (data : List Nat) (c : Nat) (fid nm own : String)
    (assigned : Nat → List String) (avail : String → Nat → Bool)
    (hc : 0 < c)
    (hav : ∀ i < data.length ⌈/⌉ c, ∃ nd ∈ assigned i, avail nd i = true) :
    (mkFileInfo fid nm (data.length : Int) own [] 0 (c : Int) 0
        false).total_chunks = ((data.length ⌈/⌉ c : Nat) : Int) ∧
    (splitChunks data c).length = data.length ⌈/⌉ c ∧
    reconstructFile (uploadStore data c assigned avail) assigned
        (data.length ⌈/⌉ c) = some data := by
  have hc0 : c ≠ 0 := Nat.pos_iff_ne_zero.mp hc
  rw [Nat.ceilDiv_eq_add_pred_div] at hav ⊢
  refine ⟨?_, ?_, ?_⟩
  · simp only [mkFileInfo, if_pos rfl]
    have hcast : ((data.length : Int) + (c : Int) - 1) =
        ((data.length + c - 1 : Nat) : Int) := by omega
    rw [hcast, ← Int.ofNat_fdiv]
    simp
  · exact splitChunks_length c hc0 data
  · have hread : ∀ i < (data.length + c - 1) / c,
        readChunk (uploadStore data c assigned avail) (assigned i) i =
          some (chunkAt data c i) := by
      intro i hi
      exact readChunk_uploadStore data c assigned avail i (assigned i)
        (fun nd hnd => hnd) (hav i hi)
    rw [reconstruct_of_reads_aux (chunkAt data c) _ assigned _ hread,
      ← splitChunks_eq_map_range c hc0 data, splitChunks_join c hc0 data]

/-- Witness for C1 at a concrete input: a five-byte file with chunk size
two, every chunk assigned to a single node that has it. -/
theorem chunk_roundtrip_witness :
    (0 < 2 ∧
      ∀ i < [7, 8, 9, 10, 11].length ⌈/⌉ 2,
        ∃ nd ∈ ["N1"], (fun _ _ => true) nd i = true) ∧
    ((mkFileInfo "f" "a.txt" ([7, 8, 9, 10, 11].length : Int) "own" [] 0
        (2 : Int) 0 false).total_chunks = (([7, 8, 9, 10, 11].length ⌈/⌉ 2 :
          Nat) : Int) ∧
      (splitChunks [7, 8, 9, 10, 11] 2).length =
        [7, 8, 9, 10, 11].length ⌈/⌉ 2 ∧
      reconstructFile
        (uploadStore [7, 8, 9, 10, 11] 2 (fun _ => ["N1"])
          (fun _ _ => true)) (fun _ => ["N1"])
        ([7, 8, 9, 10, 11].length ⌈/⌉ 2) = some [7, 8, 9, 10, 11]) :=
  ⟨⟨by decide, by decide⟩,
    chunk_roundtrip [7, 8, 9, 10, 11] 2 "f" "a.txt" "own" (fun _ => ["N1"])
      (fun _ _ => true) (by decide) (by decide)⟩

/-! ### Claim C2: registration reconciles used_storage from the catalog -/

theorem computeUsedStorage_eq (files : List (String × FileInfo))
    (nid : String) :
    computeUsedStorage files nid =
      ((files.filter (fun q => nid ∈ q.2.replica_nodes)).map
        (fun q => q.2.file_size)).sum := by
  suffices h : ∀ acc : Int, files.foldl
      (fun acc q => if nid ∈ q.2.replica_nodes then acc + q.2.file_size
        else acc) acc =
      acc + ((files.filter (fun q => nid ∈ q.2.replica_nodes)).map
        (fun q => q.2.file_size)).sum by
    simpa [computeUsedStorage] using h 0
  induction files with
  | nil => intro acc; simp
  | cons q rest ih =>
    intro acc
    by_cases hq : nid ∈ q.2.replica_nodes
    · simp only [List.foldl_cons, if_pos hq, ih, List.filter_cons,
        decide_eq_true hq, if_pos, List.map_cons, List.sum_cons]
      ring
    · simp only [List.foldl_cons, if_neg hq, ih, List.filter_cons,
        List.map_cons]
      rw [if_neg (by simpa using hq)]

/-- C2: after a successful REGISTER of a node id, the registry entry has
used_storage equal to the sum of file_size over all catalog files whose
replica_nodes list contains that node id, status active, and last_seen set
to the current time. -/
theorem register_reconciles (now : Nat) (st : CState) (node_id host : String)
    (port : Nat) (cpu mem stor bw : Int)
    (hblocked : node_id ∉ st.blocked_nodes) :
    (handleRegister now st node_id host port (some cpu) (some mem)
        (some stor) (some bw)).1.status = "OK" ∧
    ∃ n, dictGet (handleRegister now st node_id host port (some cpu)
        (some mem) (some stor) (some bw)).2.nodes node_id = some n ∧
      n.used_storage = ((st.files.filter
          (fun q => node_id ∈ q.2.replica_nodes)).map
            (fun q => q.2.file_size)).sum ∧
      n.status = "active" ∧ n.last_seen = now := by
  simp only [handleRegister, if_neg hblocked]
  refine ⟨rfl, ?_⟩
  refine ⟨_, dictGet_insert_self st.nodes node_id _, ?_, rfl, rfl⟩
  exact computeUsedStorage_eq st.files node_id

/-- Witness for C2: a restarted node rejoins a two-file catalog and its
used_storage is the sum of the sizes of the files it replicates. -/
theorem register_reconciles_witness :
    ("N1" ∉ (CState.mk []
        [("f1", mkFileInfoDefault "f1" "a" 40 "N1" ["N1", "N2"] 0),
         ("f2", mkFileInfoDefault "f2" "b" 25 "N2" ["N2"] 0),
         ("f3", mkFileInfoDefault "f3" "c" 60 "N3" ["N3", "N1"] 0)]
        [] []).blocked_nodes) ∧
    ((handleRegister 5 (CState.mk []
        [("f1", mkFileInfoDefault "f1" "a" 40 "N1" ["N1", "N2"] 0),
         ("f2", mkFileInfoDefault "f2" "b" 25 "N2" ["N2"] 0),
         ("f3", mkFileInfoDefault "f3" "c" 60 "N3" ["N3", "N1"] 0)]
        [] []) "N1" "localhost" 9001 (some 4) (some 16) (some 1000)
        (some 1000)).1.status = "OK" ∧
      ∃ n, dictGet (handleRegister 5 (CState.mk []
        [("f1", mkFileInfoDefault "f1" "a" 40 "N1" ["N1", "N2"] 0),
         ("f2", mkFileInfoDefault "f2" "b" 25 "N2" ["N2"] 0),
         ("f3", mkFileInfoDefault "f3" "c" 60 "N3" ["N3", "N1"] 0)]
        [] []) "N1" "localhost" 9001 (some 4) (some 16) (some 1000)
        (some 1000)).2.nodes "N1" = some n ∧
        n.used_storage = (((CState.mk []
        [("f1", mkFileInfoDefault "f1" "a" 40 "N1" ["N1", "N2"] 0),
         ("f2", mkFileInfoDefault "f2" "b" 25 "N2" ["N2"] 0),
         ("f3", mkFileInfoDefault "f3" "c" 60 "N3" ["N3", "N1"] 0)]
        [] []).files.filter (fun q => "N1" ∈ q.2.replica_nodes)).map
          (fun q => q.2.file_size)).sum ∧
        n.status = "active" ∧ n.last_seen = 5) :=
  ⟨by decide,
    register_reconciles 5 (CState.mk []
        [("f1", mkFileInfoDefault "f1" "a" 40 "N1" ["N1", "N2"] 0),
         ("f2", mkFileInfoDefault "f2" "b" 25 "N2" ["N2"] 0),
         ("f3", mkFileInfoDefault "f3" "c" 60 "N3" ["N3", "N1"] 0)]
        [] []) "N1" "localhost" 9001 4 16 1000 1000 (by decide)⟩

/-! ### Claim C3: replica selection policy -/

/-- Registry entry builder used by concrete examples: a node with the given
storage capacity (GB), used storage, transfer count, last_seen and status. -/
def testNode (nid : String) (storage used transfers : Int) (seen : Nat)
    (status : String) : NodeInfo :=
  { node_id := nid, host := "localhost", port := 7000, cpu_cores := 4
    memory_gb := 16, storage_gb := storage, bandwidth_mbps := 1000
    used_storage := used, active_transfers := transfers, last_seen := seen
    status := status }

/-- Replica selection exactly as claim C3 words it: rank ALL active nodes
other than the replica holders (the owner) by descending available storage
with ties by insertion order and take the top factor - 1 — without the
strictly-positive available storage condition the source imposes. -/
def claimSelectReplicaNodes (nodes : List (String × NodeInfo))
    (owner_node : String) (replication_factor : Nat) : List String :=
  let cands := (nodes.filter
      (fun p => p.1 ≠ owner_node ∧ p.2.status = "active")).map
    (fun p => (p.1, p.2.get_available_storage))
  let sorted := List.insertionSort (fun a b : String × Int => b.2 ≤ a.2) cands
  (sorted.take (replication_factor - 1)).map Prod.fst

/-- C3 fails as stated: with owner A and an active non-owner node B whose
available storage is zero (zero capacity, zero used), _select_replica_nodes
selects nothing because it additionally requires strictly positive
available storage, while the ranking the claim describes selects B. -/
theorem select_replica_counterexample :
    selectReplicaNodes
      [("A", testNode "A" 1 0 0 100 "active"),
       ("B", testNode "B" 0 0 0 100 "active")] "A" 2 = [] ∧
    claimSelectReplicaNodes
      [("A", testNode "A" 1 0 0 100 "active"),
       ("B", testNode "B" 0 0 0 100 "active")] "A" 2 = ["B"] ∧
    selectReplicaNodes
      [("A", testNode "A" 1 0 0 100 "active"),
       ("B", testNode "B" 0 0 0 100 "active")] "A" 2 ≠
    claimSelectReplicaNodes
      [("A", testNode "A" 1 0 0 100 "active"),
       ("B", testNode "B" 0 0 0 100 "active")] "A" 2 := by
  refine ⟨by decide, by decide, by decide⟩

theorem sorted_take_drop_le (l : List (String × Int)) (k : Nat) :
    ∀ p ∈ (List.insertionSort (fun a b : String × Int => b.2 ≤ a.2) l).take k,
      ∀ q ∈ (List.insertionSort (fun a b : String × Int => b.2 ≤ a.2) l).drop
        k, q.2 ≤ p.2 := by
  haveI : IsTotal (String × Int) (fun a b => b.2 ≤ a.2) :=
    ⟨fun a b => le_total b.2 a.2⟩
  haveI : IsTrans (String × Int) (fun a b => b.2 ≤ a.2) :=
    ⟨fun _ _ _ hab hbc => le_trans hbc hab⟩
  have hs := List.sorted_insertionSort (fun a b : String × Int => b.2 ≤ a.2) l
  rw [← List.take_append_drop k
    (List.insertionSort (fun a b : String × Int => b.2 ≤ a.2) l)] at hs
  exact (List.pairwise_append.mp hs).2.2

theorem selectReplicaNodes_sound (nodes : List (String × NodeInfo))
    (owner : String) (f : Nat) :
    ∀ x ∈ selectReplicaNodes nodes owner f,
      ∃ n, (x, n) ∈ nodes ∧ x ≠ owner ∧ n.status = "active" ∧
        0 < n.get_available_storage := by
  intro x hx
  simp only [selectReplicaNodes, List.mem_map] at hx
  rcases hx with ⟨p, hp, rfl⟩
  have hp2 : p ∈ List.insertionSort (fun a b : String × Int => b.2 ≤ a.2)
      (replicaCandidates nodes owner) := List.mem_of_mem_take hp
  have hp3 : p ∈ replicaCandidates nodes owner :=
    (List.perm_insertionSort _ _).mem_iff.mp hp2
  simp only [replicaCandidates, List.mem_map, List.mem_filter] at hp3
  rcases hp3 with ⟨q, ⟨hqmem, hqcond⟩, rfl⟩
  simp only [decide_eq_true_eq] at hqcond
  exact ⟨q.2, by simpa using hqmem, hqcond.1, hqcond.2.1, hqcond.2.2⟩

theorem selectReplicaNodes_nodup (nodes : List (String × NodeInfo))
    (owner : String) (f : Nat) (hnd : (nodes.map Prod.fst).Nodup) :
    (selectReplicaNodes nodes owner f).Nodup := by
  have hcands : ((replicaCandidates nodes owner).map Prod.fst).Nodup := by
    have hsub : ((nodes.filter (fun p => p.1 ≠ owner ∧
        p.2.status = "active" ∧ 0 < p.2.get_available_storage)).map
          Prod.fst).Sublist (nodes.map Prod.fst) :=
      (List.filter_sublist nodes).map Prod.fst
    have heq : (replicaCandidates nodes owner).map Prod.fst =
        (nodes.filter (fun p => p.1 ≠ owner ∧ p.2.status = "active" ∧
          0 < p.2.get_available_storage)).map Prod.fst := by
      simp [replicaCandidates, List.map_map, Function.comp]
    rw [heq]
    exact List.Nodup.sublist hsub hnd
  have hperm : ((List.insertionSort (fun a b : String × Int => b.2 ≤ a.2)
      (replicaCandidates nodes owner)).map Prod.fst).Perm
      ((replicaCandidates nodes owner).map Prod.fst) :=
    (List.perm_insertionSort _ _).map Prod.fst
  have hsorted : ((List.insertionSort (fun a b : String × Int => b.2 ≤ a.2)
      (replicaCandidates nodes owner)).map Prod.fst).Nodup :=
    hperm.nodup_iff.mpr hcands
  have htake : (((List.insertionSort (fun a b : String × Int => b.2 ≤ a.2)
      (replicaCandidates nodes owner)).take (f - 1)).map Prod.fst).Sublist
      ((List.insertionSort (fun a b : String × Int => b.2 ≤ a.2)
        (replicaCandidates nodes owner)).map Prod.fst) :=
    (List.take_sublist _ _).map Prod.fst
  exact List.Nodup.sublist htake hsorted

theorem dictGet_foldl_update_not_mem {α : Type} (f : α → α) (l : List String)
    (d : List (String × α)) (k : String) (hk : k ∉ l) :
    dictGet (l.foldl (fun ns x => dictUpdate ns x f) d) k = dictGet d k := by
  induction l generalizing d with
  | nil => rfl
  | cons x rest ih =>
    simp only [List.mem_cons, not_or] at hk
    simp only [List.foldl_cons]
    rw [ih (dictUpdate d x f) hk.2, dictGet_update_ne d x k f
      (fun hc => hk.1 hc.symm)]

theorem dictGet_foldl_update_mem {α : Type} (f : α → α) (l : List String)
    (d : List (String × α)) (k : String) (hnd : l.Nodup) (hk : k ∈ l) :
    dictGet (l.foldl (fun ns x => dictUpdate ns x f) d) k =
      (dictGet d k).map f := by
  induction l generalizing d with
  | nil => cases hk
  | cons x rest ih =>
    simp only [List.nodup_cons] at hnd
    simp only [List.foldl_cons]
    rcases List.mem_cons.mp hk with rfl | hmem
    · rw [dictGet_foldl_update_not_mem f rest (dictUpdate d k f) k hnd.1,
        dictGet_update_self]
    · have hxk : x ≠ k := fun hc => hnd.1 (hc ▸ hmem)
      rw [ih (dictUpdate d x f) hnd.2 hmem, dictGet_update_ne d x k f hxk]

/-- Scenario registry of C3: node A with 500 GB free, node B with 100 GB
free, node C offline. -/
def scenarioNodes : List (String × NodeInfo) :=
  [("A", testNode "A" 500 0 0 100 "active"),
   ("B", testNode "B" 100 0 0 100 "active"),
   ("C", testNode "C" 2000 0 0 0 "inactive")]

/-- Scenario file of C3: a 10 GB file owned by A. -/
def scenarioFile : FileInfo :=
  mkFileInfoDefault "f10" "big.bin" (10 * 1024 ^ 3) "A" ["A"] 0

/-- C3 amended: replica selection is the deterministic function of the
registry that ranks all active nodes other than the owner THAT HAVE
STRICTLY POSITIVE AVAILABLE STORAGE by descending available storage
(capacity minus used_storage), breaking ties by node insertion order, and
takes the top factor - 1; each selected node is added to the scheduled
file's replica_nodes and its used_storage is incremented by the file size;
two runs on the same inputs select the same set; and in the scenario with
node A having 500 GB free, node B having 100 GB free, node C offline, and
a 10 GB file owned by A, scheduling with factor 2 yields replica_nodes
equal to the set containing exactly A and B. -/
theorem select_replica_amended (nodes : List (String × NodeInfo))
    (owner : String) (f : Nat) (fi : FileInfo)
    (hnd : (nodes.map Prod.fst).Nodup) :
    (∀ x ∈ selectReplicaNodes nodes owner f,
      ∃ n, (x, n) ∈ nodes ∧ x ≠ owner ∧ n.status = "active" ∧
        0 < n.get_available_storage) ∧
    (selectReplicaNodes nodes owner f).length =
      min (f - 1) (replicaCandidates nodes owner).length ∧
    selectReplicaNodes nodes owner f =
      ((List.insertionSort (fun a b : String × Int => b.2 ≤ a.2)
        (replicaCandidates nodes owner)).take (f - 1)).map Prod.fst ∧
    (∀ p ∈ (List.insertionSort (fun a b : String × Int => b.2 ≤ a.2)
          (replicaCandidates nodes owner)).take (f - 1),
      ∀ q ∈ (List.insertionSort (fun a b : String × Int => b.2 ≤ a.2)
          (replicaCandidates nodes owner)).drop (f - 1), q.2 ≤ p.2) ∧
    selectReplicaNodes nodes owner f = selectReplicaNodes nodes owner f ∧
    (fi.owner_node = owner → minNodesForReplication ≤ nodes.length →
      ∀ x ∈ selectReplicaNodes nodes owner defaultReplicationFactor,
        x ∈ (scheduleFileUpload nodes fi).2.replica_nodes ∧
        dictGet (scheduleFileUpload nodes fi).1 x =
          (dictGet nodes x).map (fun n =>
            { n with used_storage := n.used_storage + fi.file_size })) ∧
    ("A" ∈ (scheduleFileUpload scenarioNodes scenarioFile).2.replica_nodes ∧
      "B" ∈ (scheduleFileUpload scenarioNodes scenarioFile).2.replica_nodes ∧
      (∀ x ∈ (scheduleFileUpload scenarioNodes scenarioFile).2.replica_nodes,
        x = "A" ∨ x = "B") ∧
      dictGet (scheduleFileUpload scenarioNodes scenarioFile).1 "B" =
        some { testNode "B" 100 0 0 100 "active" with
          used_storage := 10 * 1024 ^ 3 }) := by
  refine ⟨selectReplicaNodes_sound nodes owner f, ?_, rfl,
    sorted_take_drop_le (replicaCandidates nodes owner) (f - 1), rfl,
    ?_, by decide, by decide, by decide, by decide⟩
  · simp only [selectReplicaNodes, List.length_map, List.length_take]
    congr 1
    exact ((List.perm_insertionSort _ _).length_eq)
  · intro howner hmin x hx
    rw [← howner] at hx
    constructor
    · simp only [scheduleFileUpload, if_pos hmin, List.mem_dedup,
        List.mem_append]
      exact Or.inr hx
    · simp only [scheduleFileUpload, if_pos hmin]
      exact dictGet_foldl_update_mem _ _ nodes x
        (selectReplicaNodes_nodup nodes fi.owner_node
          defaultReplicationFactor hnd) hx

/-- Witness for C3 amended at the scenario registry itself. -/
theorem select_replica_amended_witness :
    ((scenarioNodes.map Prod.fst).Nodup) ∧
    ((∀ x ∈ selectReplicaNodes scenarioNodes "A" 2,
      ∃ n, (x, n) ∈ scenarioNodes ∧ x ≠ "A" ∧ n.status = "active" ∧
        0 < n.get_available_storage) ∧
    (selectReplicaNodes scenarioNodes "A" 2).length =
      min (2 - 1) (replicaCandidates scenarioNodes "A").length ∧
    selectReplicaNodes scenarioNodes "A" 2 =
      ((List.insertionSort (fun a b : String × Int => b.2 ≤ a.2)
        (replicaCandidates scenarioNodes "A")).take (2 - 1)).map Prod.fst ∧
    (∀ p ∈ (List.insertionSort (fun a b : String × Int => b.2 ≤ a.2)
          (replicaCandidates scenarioNodes "A")).take (2 - 1),
      ∀ q ∈ (List.insertionSort (fun a b : String × Int => b.2 ≤ a.2)
          (replicaCandidates scenarioNodes "A")).drop (2 - 1), q.2 ≤ p.2) ∧
    selectReplicaNodes scenarioNodes "A" 2 =
      selectReplicaNodes scenarioNodes "A" 2 ∧
    (scenarioFile.owner_node = "A" →
      minNodesForReplication ≤ scenarioNodes.length →
      ∀ x ∈ selectReplicaNodes scenarioNodes "A" defaultReplicationFactor,
        x ∈ (scheduleFileUpload scenarioNodes
          scenarioFile).2.replica_nodes ∧
        dictGet (scheduleFileUpload scenarioNodes scenarioFile).1 x =
          (dictGet scenarioNodes x).map (fun n =>
            { n with used_storage :=
              n.used_storage + scenarioFile.file_size })) ∧
    ("A" ∈ (scheduleFileUpload scenarioNodes scenarioFile).2.replica_nodes ∧
      "B" ∈ (scheduleFileUpload scenarioNodes scenarioFile).2.replica_nodes ∧
      (∀ x ∈ (scheduleFileUpload scenarioNodes scenarioFile).2.replica_nodes,
        x = "A" ∨ x = "B") ∧
      dictGet (scheduleFileUpload scenarioNodes scenarioFile).1 "B" =
        some { testNode "B" 100 0 0 100 "active" with
          used_storage := 10 * 1024 ^ 3 })) :=
  ⟨by decide, select_replica_amended scenarioNodes "A" 2 scenarioFile
    (by decide)⟩

/-! ### Claim C4: round-robin chunk striping -/

/-- C4: chunk assignment stripes replicas round-robin over the
deterministically shuffled candidate list: whenever the replication factor
does not exceed the candidate count, or there is at most one candidate
(together these cover every reachable configuration, since the source fixes
CHUNK_REPLICATION = 2), the nodes assigned to chunk i are
shuffled[(i*R) mod N], onward, taken cyclically for min(R, N) slots; a
3 MiB file split at 1 MiB yields exactly chunks 0, 1, 2, and with
replication 2 over 3 distinct candidate nodes every chunk is assigned
exactly 2 distinct nodes and each of the 3 nodes appears in at least one
chunk's assignment. -/
theorem chunk_assignment (shuffled : List String) (R i : Nat)
    (h : R ≤ shuffled.length ∨ shuffled.length ≤ 1) :
    assignChunkNodes shuffled R i = claimAssignChunkNodes shuffled R i ∧
    CHUNK_REPLICATION = 2 ∧
    (splitChunks (List.replicate (3 * CHUNK_SIZE) 0) CHUNK_SIZE).length = 3 ∧
    (shuffled.length = 3 → shuffled.Nodup →
      (∀ j < 3, (assignChunkNodes shuffled CHUNK_REPLICATION j).length = 2 ∧
        (assignChunkNodes shuffled CHUNK_REPLICATION j).Nodup) ∧
      (∀ x ∈ shuffled, ∃ j < 3,
        x ∈ assignChunkNodes shuffled CHUNK_REPLICATION j)) := by
  refine ⟨?_, rfl, ?_, ?_⟩
  · simp only [assignChunkNodes, claimAssignChunkNodes]
    by_cases hN : shuffled.length = 0
    · simp [hN]
    · rw [if_neg hN]
      rcases h with hR | h1
      · rw [Nat.min_eq_left hR]
        apply List.map_congr_left
        intro r _
        rw [Nat.mod_add_mod]
      · have hN1 : shuffled.length = 1 := by omega
        rw [hN1]
        rcases Nat.eq_zero_or_pos R with hR0 | hRpos
        · simp [hR0]
        · rw [Nat.min_eq_right hRpos]
          simp [List.range_succ, Nat.mod_one]
  · rw [splitChunks_length CHUNK_SIZE (by decide), List.length_replicate]
    decide
  · intro h3 hnodup
    match shuffled, h3 with
    | [a, b, c], _ =>
      have hab : a ≠ b := by rintro rfl; simp [List.nodup_cons] at hnodup
      have hac : a ≠ c := by rintro rfl; simp [List.nodup_cons] at hnodup
      have hbc : b ≠ c := by rintro rfl; simp [List.nodup_cons] at hnodup
      have e0 : assignChunkNodes [a, b, c] CHUNK_REPLICATION 0 = [a, b] := by
        simp [assignChunkNodes, CHUNK_REPLICATION, List.range_succ]
      have e1 : assignChunkNodes [a, b, c] CHUNK_REPLICATION 1 = [c, a] := by
        simp [assignChunkNodes, CHUNK_REPLICATION, List.range_succ]
      have e2 : assignChunkNodes [a, b, c] CHUNK_REPLICATION 2 = [b, c] := by
        simp [assignChunkNodes, CHUNK_REPLICATION, List.range_succ]
      constructor
      · intro j hj
        interval_cases j
        · rw [e0]
          exact ⟨rfl, by simp [List.nodup_cons, hab]⟩
        · rw [e1]
          refine ⟨rfl, ?_⟩
          have hca : c ≠ a := fun hc => hac hc.symm
          simp [List.nodup_cons, hca]
        · rw [e2]
          exact ⟨rfl, by simp [List.nodup_cons, hbc]⟩
      · intro x hx
        rcases List.mem_cons.mp hx with rfl | hx2
        · exact ⟨0, by omega, by rw [e0]; simp⟩
        rcases List.mem_cons.mp hx2 with rfl | hx3
        · exact ⟨0, by omega, by rw [e0]; simp⟩
        rcases List.mem_cons.mp hx3 with rfl | hx4
        · exact ⟨1, by omega, by rw [e1]; simp⟩
        · cases hx4

/-- Witness for C4 with three concrete distinct candidate nodes. -/
theorem chunk_assignment_witness :
    ((2 : Nat) ≤ ["N1", "N2", "N3"].length ∨ ["N1", "N2", "N3"].length ≤ 1) ∧
    (assignChunkNodes ["N1", "N2", "N3"] 2 0 =
        claimAssignChunkNodes ["N1", "N2", "N3"] 2 0 ∧
      CHUNK_REPLICATION = 2 ∧
      (splitChunks (List.replicate (3 * CHUNK_SIZE) 0) CHUNK_SIZE).length =
        3 ∧
      (["N1", "N2", "N3"].length = 3 → ["N1", "N2", "N3"].Nodup →
        (∀ j < 3, (assignChunkNodes ["N1", "N2", "N3"]
            CHUNK_REPLICATION j).length = 2 ∧
          (assignChunkNodes ["N1", "N2", "N3"] CHUNK_REPLICATION j).Nodup) ∧
        (∀ x ∈ ["N1", "N2", "N3"], ∃ j < 3,
          x ∈ assignChunkNodes ["N1", "N2", "N3"] CHUNK_REPLICATION j))) :=
  ⟨by decide, chunk_assignment ["N1", "N2", "N3"] 2 0 (by decide)⟩

/-! ### Claim C5: download source selection and the no-replica error -/

theorem foldl_min_mem (xs : List (String × NodeInfo)) :
    ∀ init, xs.foldl (fun best q =>
        if q.2.active_transfers < best.2.active_transfers then q else best)
      init = init ∨
      xs.foldl (fun best q =>
        if q.2.active_transfers < best.2.active_transfers then q else best)
      init ∈ xs := by
  induction xs with
  | nil => intro init; exact Or.inl rfl
  | cons y ys ih =>
    intro init
    simp only [List.foldl_cons]
    by_cases hy : y.2.active_transfers < init.2.active_transfers
    · rw [if_pos hy]
      rcases ih y with h | h
      · exact Or.inr (by rw [h]; exact List.mem_cons_self y ys)
      · exact Or.inr (List.mem_cons_of_mem _ h)
    · rw [if_neg hy]
      rcases ih init with h | h
      · exact Or.inl h
      · exact Or.inr (List.mem_cons_of_mem _ h)

theorem foldl_min_le (xs : List (String × NodeInfo)) :
    ∀ init, (xs.foldl (fun best q =>
        if q.2.active_transfers < best.2.active_transfers then q else best)
      init).2.active_transfers ≤ init.2.active_transfers ∧
      ∀ q ∈ xs, (xs.foldl (fun best q =>
        if q.2.active_transfers < best.2.active_transfers then q else best)
      init).2.active_transfers ≤ q.2.active_transfers := by
  induction xs with
  | nil =>
    intro init
    exact ⟨le_refl _, by intro q hq; cases hq⟩
  | cons y ys ih =>
    intro init
    simp only [List.foldl_cons]
    by_cases hy : y.2.active_transfers < init.2.active_transfers
    · rw [if_pos hy]
      obtain ⟨h1, h2⟩ := ih y
      refine ⟨h1.trans (le_of_lt hy), ?_⟩
      intro q hq
      rcases List.mem_cons.mp hq with rfl | hq2
      · exact h1
      · exact h2 q hq2
    · rw [if_neg hy]
      obtain ⟨h1, h2⟩ := ih init
      refine ⟨h1, ?_⟩
      intro q hq
      rcases List.mem_cons.mp hq with rfl | hq2
      · exact h1.trans (not_lt.mp hy)
      · exact h2 q hq2

theorem selectBestSource_spec (l : List (String × NodeInfo))
    (x : String × NodeInfo) (hx : selectBestSource l = some x) :
    x ∈ l ∧ ∀ q ∈ l, x.2.active_transfers ≤ q.2.active_transfers := by
  match l, hx with
  | y :: ys, hx =>
    simp only [selectBestSource, Option.some.injEq] at hx
    subst hx
    constructor
    · rcases foldl_min_mem ys y with h | h
      · rw [h]; exact List.mem_cons_self y ys
      · exact List.mem_cons_of_mem _ h
    · intro q hq
      obtain ⟨h1, h2⟩ := foldl_min_le ys y
      rcases List.mem_cons.mp hq with rfl | hq2
      · exact h1
      · exact h2 q hq2

theorem mem_onlineReplicas (st : CState) (fi : FileInfo)
    (p : String × NodeInfo) (hp : p ∈ onlineReplicas st fi) :
    p.1 ∈ fi.replica_nodes ∧ dictGet st.nodes p.1 = some p.2 ∧
      p.2.status = "active" := by
  simp only [onlineReplicas, List.mem_filterMap] at hp
  rcases hp with ⟨nid, hnid, hf⟩
  cases hget : dictGet st.nodes nid with
  | none => rw [hget] at hf; cases hf
  | some n =>
    rw [hget] at hf
    dsimp only at hf
    by_cases hst : n.status = "active"
    · rw [if_pos hst] at hf
      obtain rfl := Option.some.inj hf
      exact ⟨hnid, hget, hst⟩
    · rw [if_neg hst] at hf
      cases hf

/-- C5: when every replica node of a file is unregistered or inactive, the
DOWNLOAD_REQUEST returns the error response No online replicas available
and the whole controller state, in particular every node's
active_transfers, is unchanged; when at least one replica is active, the
selected source is the online replica with the fewest active_transfers
(first in replica order on ties) and active_transfers is incremented on
both the source node and the registered requesting node. -/
theorem download_request_spec (st : CState) (req fid : String)
    (fi : FileInfo) (hfi : dictGet st.files fid = some fi) :
    (onlineReplicas st fi = [] →
      handleDownloadRequest st req fid =
        (errResp "No online replicas available", st)) ∧
    (∀ src, selectBestSource (onlineReplicas st fi) = some src →
      src ∈ onlineReplicas st fi ∧
      (∀ q ∈ onlineReplicas st fi,
        src.2.active_transfers ≤ q.2.active_transfers) ∧
      (handleDownloadRequest st req fid).1.status = "OK" ∧
      (handleDownloadRequest st req fid).1.source_node = src.1 ∧
      (src.1 ≠ req →
        dictGet (handleDownloadRequest st req fid).2.nodes src.1 =
          some { src.2 with
            active_transfers := src.2.active_transfers + 1 }) ∧
      (req ≠ src.1 → ∀ rn, dictGet st.nodes req = some rn →
        dictGet (handleDownloadRequest st req fid).2.nodes req =
          some { rn with active_transfers := rn.active_transfers + 1 })) := by
  constructor
  · intro h0
    simp only [handleDownloadRequest, hfi, h0]
    rfl
  · intro src hsrc
    obtain ⟨hmem, hmin⟩ := selectBestSource_spec _ src hsrc
    obtain ⟨hrepl, hget, hst⟩ := mem_onlineReplicas st fi src hmem
    simp only [handleDownloadRequest, hfi, hsrc]
    refine ⟨hmem, hmin, by trivial, by trivial, ?_, ?_⟩
    · intro hne
      by_cases hreq : (dictGet (dictUpdate st.nodes src.1 (fun n =>
          { n with active_transfers := n.active_transfers + 1 }))
          req).isSome
      · simp only [if_pos hreq]
        rw [dictGet_update_ne _ req src.1 _ (fun hc => hne hc.symm),
          dictGet_update_self, hget]
        rfl
      · simp only [if_neg hreq]
        rw [dictGet_update_self, hget]
        rfl
    · intro hne rn hrn
      have h1 : dictGet (dictUpdate st.nodes src.1 (fun n =>
          { n with active_transfers := n.active_transfers + 1 })) req =
          some rn := by
        rw [dictGet_update_ne _ src.1 req _ (fun hc => hne hc.symm), hrn]
      have hsome : (dictGet (dictUpdate st.nodes src.1 (fun n =>
          { n with active_transfers := n.active_transfers + 1 }))
          req).isSome := by
        rw [h1]; rfl
      simp only [if_pos hsome]
      rw [dictGet_update_self, h1]
      rfl

/-- Witness for C5 on a registry with two online replicas of different
load, one offline replica, and a registered requester: the error branch is
vacuous (non-empty online set) and the least-loaded replica is chosen. -/
theorem download_request_spec_witness :
    (dictGet (CState.mk
      [("S1", testNode "S1" 100 0 5 50 "active"),
       ("S2", testNode "S2" 100 0 2 50 "active"),
       ("S3", testNode "S3" 100 0 0 0 "inactive"),
       ("R", testNode "R" 100 0 0 50 "active")]
      [("f1", mkFileInfoDefault "f1" "a.bin" 7 "S1" ["S1", "S2", "S3"] 0)]
      [] []).files "f1"
      = some (mkFileInfoDefault "f1" "a.bin" 7 "S1" ["S1", "S2", "S3"] 0)) ∧
    ((handleDownloadRequest (CState.mk
      [("S1", testNode "S1" 100 0 5 50 "active"),
       ("S2", testNode "S2" 100 0 2 50 "active"),
       ("S3", testNode "S3" 100 0 0 0 "inactive"),
       ("R", testNode "R" 100 0 0 50 "active")]
      [("f1", mkFileInfoDefault "f1" "a.bin" 7 "S1" ["S1", "S2", "S3"] 0)]
      [] []) "R" "f1").1.source_node = "S2" ∧
     dictGet (handleDownloadRequest (CState.mk
      [("S1", testNode "S1" 100 0 5 50 "active"),
       ("S2", testNode "S2" 100 0 2 50 "active"),
       ("S3", testNode "S3" 100 0 0 0 "inactive"),
       ("R", testNode "R" 100 0 0 50 "active")]
      [("f1", mkFileInfoDefault "f1" "a.bin" 7 "S1" ["S1", "S2", "S3"] 0)]
      [] []) "R" "f1").2.nodes "S2" =
        some (testNode "S2" 100 0 3 50 "active") ∧
     dictGet (handleDownloadRequest (CState.mk
      [("S1", testNode "S1" 100 0 5 50 "active"),
       ("S2", testNode "S2" 100 0 2 50 "active"),
       ("S3", testNode "S3" 100 0 0 0 "inactive"),
       ("R", testNode "R" 100 0 0 50 "active")]
      [("f1", mkFileInfoDefault "f1" "a.bin" 7 "S1" ["S1", "S2", "S3"] 0)]
      [] []) "R" "f1").2.nodes "R" =
        some (testNode "R" 100 0 1 50 "active")) := by
  have h := download_request_spec (CState.mk
      [("S1", testNode "S1" 100 0 5 50 "active"),
       ("S2", testNode "S2" 100 0 2 50 "active"),
       ("S3", testNode "S3" 100 0 0 0 "inactive"),
       ("R", testNode "R" 100 0 0 50 "active")]
      [("f1", mkFileInfoDefault "f1" "a.bin" 7 "S1" ["S1", "S2", "S3"] 0)]
      [] []) "R" "f1"
      (mkFileInfoDefault "f1" "a.bin" 7 "S1" ["S1", "S2", "S3"] 0) (by decide)
  refine ⟨by decide, ?_, ?_, ?_⟩
  · exact (h.2 ("S2", testNode "S2" 100 0 2 50 "active")
      (by decide)).2.2.2.1
  · have := (h.2 ("S2", testNode "S2" 100 0 2 50 "active")
      (by decide)).2.2.2.2.1 (by decide)
    rw [this]
    rfl
  · have := (h.2 ("S2", testNode "S2" 100 0 2 50 "active")
      (by decide)).2.2.2.2.2 (by decide)
      (testNode "R" 100 0 0 50 "active") (by decide)
    rw [this]
    rfl

/-! ### Claim C6: DELETE_FILE effect and idempotence -/

/-- C6: DELETE_FILE on an existing file id succeeds, decrements
used_storage by the file size floored at zero on every registered node of
the file's replica list (and touches no other node), removes the catalog
entry, and a second DELETE_FILE on the same id returns a not-found error
and leaves the state entirely unchanged. -/
theorem delete_file_spec (st : CState) (fid : String) (fi : FileInfo)
    (hfid : fid ≠ "") (hfi : dictGet st.files fid = some fi)
    (hnd : fi.replica_nodes.Nodup)
    (hkeys : (st.files.map Prod.fst).Nodup) :
    (handleDeleteFile st (some fid)).1.status = "OK" ∧
    dictGet (handleDeleteFile st (some fid)).2.files fid = none ∧
    (∀ nid ∈ fi.replica_nodes,
      dictGet (handleDeleteFile st (some fid)).2.nodes nid =
        (dictGet st.nodes nid).map (fun n =>
          { n with
            used_storage := max 0 (n.used_storage - fi.file_size) })) ∧
    (∀ nid, nid ∉ fi.replica_nodes →
      dictGet (handleDeleteFile st (some fid)).2.nodes nid =
        dictGet st.nodes nid) ∧
    handleDeleteFile (handleDeleteFile st (some fid)).2 (some fid) =
      (errResp "File not found in controller",
        (handleDeleteFile st (some fid)).2) := by
  have hstep : handleDeleteFile st (some fid) =
      (okResp "File deleted from controller",
        { st with
          nodes := fi.replica_nodes.foldl
            (fun ns nid => dictUpdate ns nid (fun n =>
              { n with
                used_storage := max 0 (n.used_storage - fi.file_size) }))
            st.nodes
          files := dictErase st.files fid }) := by
    simp only [handleDeleteFile, if_neg hfid, hfi]
  rw [hstep]
  refine ⟨rfl, dictGet_erase_self st.files fid hkeys, ?_, ?_, ?_⟩
  · intro nid hmem
    exact dictGet_foldl_update_mem _ fi.replica_nodes st.nodes nid hnd hmem
  · intro nid hmem
    exact dictGet_foldl_update_not_mem _ fi.replica_nodes st.nodes nid hmem
  · simp only [handleDeleteFile, if_neg hfid,
      dictGet_erase_self st.files fid hkeys]

/-- Witness for C6 on a registry of two replica holders, one of which
would underflow and is floored at zero. -/
theorem delete_file_spec_witness :
    (("f1" : String) ≠ "" ∧
      dictGet (CState.mk
        [("N1", testNode "N1" 100 50 0 50 "active"),
         ("N2", testNode "N2" 100 3 0 50 "active")]
        [("f1", mkFileInfoDefault "f1" "a.bin" 10 "N1" ["N1", "N2"] 0)]
        [] []).files "f1"
        = some (mkFileInfoDefault "f1" "a.bin" 10 "N1" ["N1", "N2"] 0) ∧
      (mkFileInfoDefault "f1" "a.bin" 10 "N1"
        ["N1", "N2"] 0).replica_nodes.Nodup ∧
      ((CState.mk
        [("N1", testNode "N1" 100 50 0 50 "active"),
         ("N2", testNode "N2" 100 3 0 50 "active")]
        [("f1", mkFileInfoDefault "f1" "a.bin" 10 "N1" ["N1", "N2"] 0)]
        [] []).files.map Prod.fst).Nodup) ∧
    ((handleDeleteFile (CState.mk
        [("N1", testNode "N1" 100 50 0 50 "active"),
         ("N2", testNode "N2" 100 3 0 50 "active")]
        [("f1", mkFileInfoDefault "f1" "a.bin" 10 "N1" ["N1", "N2"] 0)]
        [] []) (some "f1")).1.status = "OK" ∧
      dictGet (handleDeleteFile (CState.mk
        [("N1", testNode "N1" 100 50 0 50 "active"),
         ("N2", testNode "N2" 100 3 0 50 "active")]
        [("f1", mkFileInfoDefault "f1" "a.bin" 10 "N1" ["N1", "N2"] 0)]
        [] []) (some "f1")).2.nodes "N1" =
        some (testNode "N1" 100 40 0 50 "active") ∧
      dictGet (handleDeleteFile (CState.mk
        [("N1", testNode "N1" 100 50 0 50 "active"),
         ("N2", testNode "N2" 100 3 0 50 "active")]
        [("f1", mkFileInfoDefault "f1" "a.bin" 10 "N1" ["N1", "N2"] 0)]
        [] []) (some "f1")).2.nodes "N2" =
        some (testNode "N2" 100 0 0 50 "active") ∧
      (handleDeleteFile (handleDeleteFile (CState.mk
        [("N1", testNode "N1" 100 50 0 50 "active"),
         ("N2", testNode "N2" 100 3 0 50 "active")]
        [("f1", mkFileInfoDefault "f1" "a.bin" 10 "N1" ["N1", "N2"] 0)]
        [] []) (some "f1")).2 (some "f1")).1.status = "ERROR" ∧
      (handleDeleteFile (handleDeleteFile (CState.mk
        [("N1", testNode "N1" 100 50 0 50 "active"),
         ("N2", testNode "N2" 100 3 0 50 "active")]
        [("f1", mkFileInfoDefault "f1" "a.bin" 10 "N1" ["N1", "N2"] 0)]
        [] []) (some "f1")).2 (some "f1")).2 =
        (handleDeleteFile (CState.mk
        [("N1", testNode "N1" 100 50 0 50 "active"),
         ("N2", testNode "N2" 100 3 0 50 "active")]
        [("f1", mkFileInfoDefault "f1" "a.bin" 10 "N1" ["N1", "N2"] 0)]
        [] []) (some "f1")).2) := by
  have h := delete_file_spec (CState.mk
        [("N1", testNode "N1" 100 50 0 50 "active"),
         ("N2", testNode "N2" 100 3 0 50 "active")]
        [("f1", mkFileInfoDefault "f1" "a.bin" 10 "N1" ["N1", "N2"] 0)]
        [] []) "f1"
    (mkFileInfoDefault "f1" "a.bin" 10 "N1" ["N1", "N2"] 0)
    (by decide) (by decide) (by decide) (by decide)
  refine ⟨⟨by decide, by decide, by decide, by decide⟩,
    h.1, ?_, ?_, ?_, ?_⟩
  · have := h.2.2.1 "N1" (by decide)
    rw [this]
    rfl
  · have := h.2.2.1 "N2" (by decide)
    rw [this]
    rfl
  · rw [h.2.2.2.2]
    rfl
  · rw [h.2.2.2.2]

/-! ### Claim C7: liveness sweep and heartbeat recovery -/

theorem dictGet_map_snd (l : List (String × NodeInfo))
    (f : NodeInfo → NodeInfo) (k : String) :
    dictGet (l.map (fun p => (p.1, f p.2))) k = (dictGet l k).map f := by
  induction l with
  | nil => rfl
  | cons p rest ih =>
    by_cases h : p.1 = k
    · simp [dictGet, h]
    · simp [dictGet, h, ih]

theorem dictGet_mem {α : Type} (l : List (String × α)) (k : String) (v : α)
    (h : dictGet l k = some v) : (k, v) ∈ l := by
  induction l with
  | nil => cases h
  | cons p rest ih =>
    by_cases hp : p.1 = k
    · simp only [dictGet, if_pos hp, Option.some.injEq] at h
      exact List.mem_cons.mpr (Or.inl (by rw [← hp, ← h]))
    · simp only [dictGet, if_neg hp] at h
      exact List.mem_cons_of_mem _ (ih h)

/-- C7: the liveness sweep runs every 10 time units with a 30 time unit
threshold; a registered active node whose last_seen is more than 30 time
units in the past is flipped to inactive, collected into the failure batch,
and the failure-handling hook is invoked exactly once for that batch; a
subsequent successful HEARTBEAT from that node, when it is not in the
forced-offline set, is acknowledged, sets last_seen to the current time and
flips the status back to active. -/
theorem liveness_sweep_spec (now now2 : Nat) (st : CState) (nid : String)
    (n : NodeInfo) (hget : dictGet st.nodes nid = some n)
    (hactive : n.status = "active")
    (htimeout : heartbeatTimeout < now - n.last_seen)
    (hforced : nid ∉ st.forced_offline) :
    sweepInterval = 10 ∧ heartbeatTimeout = 30 ∧
    dictGet (heartbeatSweep now st).1.nodes nid =
      some { n with status := "inactive" } ∧
    nid ∈ (heartbeatSweep now st).2.1 ∧
    (heartbeatSweep now st).2.2 = 1 ∧
    (handleHeartbeat now2 (heartbeatSweep now st).1 nid none none).1 =
      ackResp ∧
    dictGet (handleHeartbeat now2 (heartbeatSweep now st).1 nid
        none none).2.nodes nid =
      some { n with status := "active", last_seen := now2 } := by
  have hswept : dictGet (heartbeatSweep now st).1.nodes nid =
      some { n with status := "inactive" } := by
    show dictGet (st.nodes.map (fun p => (p.1, sweepNode now p.2))) nid = _
    rw [dictGet_map_snd, hget]
    show some (sweepNode now n) = _
    simp only [sweepNode, if_pos (And.intro htimeout hactive)]
  have hbatch : nid ∈ sweepBatch now st.nodes := by
    simp only [sweepBatch, List.mem_filterMap]
    exact ⟨(nid, n), dictGet_mem st.nodes nid n hget,
      by simp [if_pos (And.intro htimeout hactive)]⟩
  have hfo : (heartbeatSweep now st).1.forced_offline = st.forced_offline :=
    rfl
  refine ⟨rfl, rfl, hswept, hbatch, ?_, ?_, ?_⟩
  · show (if sweepBatch now st.nodes = [] then 0 else 1) = 1
    rw [if_neg (List.ne_nil_of_mem hbatch)]
  · simp only [handleHeartbeat, hswept]
    rw [hfo, if_neg hforced]
  · simp only [handleHeartbeat, hswept]
    rw [hfo, if_neg hforced]
    dsimp only
    rw [dictGet_update_self, hswept]
    rfl

/-- Witness for C7: a node silent since time 0 is swept at time 31 and
recovers with a heartbeat at time 40. -/
theorem liveness_sweep_spec_witness :
    (dictGet (CState.mk [("N1", testNode "N1" 100 0 0 0 "active")] [] []
        []).nodes "N1" = some (testNode "N1" 100 0 0 0 "active") ∧
      (testNode "N1" 100 0 0 0 "active").status = "active" ∧
      heartbeatTimeout <
        31 - (testNode "N1" 100 0 0 0 "active").last_seen ∧
      "N1" ∉ (CState.mk [("N1", testNode "N1" 100 0 0 0 "active")] [] []
        []).forced_offline) ∧
    (sweepInterval = 10 ∧ heartbeatTimeout = 30 ∧
      dictGet (heartbeatSweep 31 (CState.mk
        [("N1", testNode "N1" 100 0 0 0 "active")] [] [] [])).1.nodes "N1" =
        some { testNode "N1" 100 0 0 0 "active" with status := "inactive" } ∧
      "N1" ∈ (heartbeatSweep 31 (CState.mk
        [("N1", testNode "N1" 100 0 0 0 "active")] [] [] [])).2.1 ∧
      (heartbeatSweep 31 (CState.mk
        [("N1", testNode "N1" 100 0 0 0 "active")] [] [] [])).2.2 = 1 ∧
      (handleHeartbeat 40 (heartbeatSweep 31 (CState.mk
        [("N1", testNode "N1" 100 0 0 0 "active")] [] [] [])).1 "N1"
        none none).1 = ackResp ∧
      dictGet (handleHeartbeat 40 (heartbeatSweep 31 (CState.mk
        [("N1", testNode "N1" 100 0 0 0 "active")] [] [] [])).1 "N1"
        none none).2.nodes "N1" =
        some { testNode "N1" 100 0 0 0 "active" with
          status := "active", last_seen := 40 }) :=
  ⟨⟨by decide, by decide, by decide, by decide⟩,
    liveness_sweep_spec 31 40 (CState.mk
      [("N1", testNode "N1" 100 0 0 0 "active")] [] [] []) "N1"
      (testNode "N1" 100 0 0 0 "active") (by decide) (by decide) (by decide)
      (by decide)⟩

/-! ### Claim C8: DELETE_NODE and the blocked set -/

theorem mem_setAdd_self (s : List String) (x : String) : x ∈ setAdd s x := by
  unfold setAdd
  by_cases h : x ∈ s
  · simp [h]
  · simp [h]

/-- C8 fails as stated: DELETE_NODE of a never-registered node id reports
success and adds the id to the blocked set, but does NOT add it to the
forced-offline set, contradicting the claim that the id is added to both
sets even if the node was never registered. -/
theorem delete_node_counterexample :
    (handleDeleteNode (CState.mk [] [] [] []) (some "X")).1.status = "OK" ∧
    "X" ∈ (handleDeleteNode (CState.mk [] [] [] [])
      (some "X")).2.blocked_nodes ∧
    "X" ∉ (handleDeleteNode (CState.mk [] [] [] [])
      (some "X")).2.forced_offline :=
  ⟨by decide, by decide, by decide⟩

/-- C8 amended: DELETE_NODE removes the registry entry when present, always
adds the id to the blocked set, adds it to the forced-offline set exactly
when the node was registered, and returns success even when the node was
never registered; while an id is in the blocked set, every REGISTER for it
returns an error and leaves the state unchanged, so no registry entry is
created. -/
theorem delete_node_amended (st : CState) (nid : String) (hnid : nid ≠ "")
    (hkeys : (st.nodes.map Prod.fst).Nodup) :
    (handleDeleteNode st (some nid)).1.status = "OK" ∧
    dictGet (handleDeleteNode st (some nid)).2.nodes nid = none ∧
    nid ∈ (handleDeleteNode st (some nid)).2.blocked_nodes ∧
    ((dictGet st.nodes nid).isSome →
      nid ∈ (handleDeleteNode st (some nid)).2.forced_offline) ∧
    (∀ st2 : CState, nid ∈ st2.blocked_nodes →
      ∀ (now : Nat) (host : String) (port : Nat) (cpu mem stor bw :
          Option Int),
        (handleRegister now st2 nid host port cpu mem stor bw).1.status =
          "ERROR" ∧
        (handleRegister now st2 nid host port cpu mem stor bw).2 = st2) := by
  have hreg : ∀ st2 : CState, nid ∈ st2.blocked_nodes →
      ∀ (now : Nat) (host : String) (port : Nat) (cpu mem stor bw :
          Option Int),
        (handleRegister now st2 nid host port cpu mem stor bw).1.status =
          "ERROR" ∧
        (handleRegister now st2 nid host port cpu mem stor bw).2 = st2 := by
    intro st2 hbl now host port cpu mem stor bw
    match cpu, mem, stor, bw with
    | some c, some m, some s, some b =>
      simp only [handleRegister, if_pos hbl]
      exact ⟨by trivial, by trivial⟩
    | none, _, _, _ => exact ⟨rfl, rfl⟩
    | some _, none, _, _ => exact ⟨rfl, rfl⟩
    | some _, some _, none, _ => exact ⟨rfl, rfl⟩
    | some _, some _, some _, none => exact ⟨rfl, rfl⟩
  by_cases hin : (dictGet st.nodes nid).isSome
  · have hstep : handleDeleteNode st (some nid) =
        (okResp "Node deleted",
          { st with
            forced_offline := setAdd st.forced_offline nid
            nodes := dictErase st.nodes nid
            blocked_nodes := setAdd st.blocked_nodes nid }) := by
      simp only [handleDeleteNode, if_neg hnid, if_pos hin]
    rw [hstep]
    exact ⟨rfl, dictGet_erase_self st.nodes nid hkeys,
      mem_setAdd_self st.blocked_nodes nid,
      fun _ => mem_setAdd_self st.forced_offline nid, hreg⟩
  · have hstep : handleDeleteNode st (some nid) =
        (okResp "Node deleted",
          { st with blocked_nodes := setAdd st.blocked_nodes nid }) := by
      simp only [handleDeleteNode, if_neg hnid, if_neg hin]
    rw [hstep]
    exact ⟨rfl, Option.not_isSome_iff_eq_none.mp hin,
      mem_setAdd_self st.blocked_nodes nid,
      fun hcon => absurd hcon hin, hreg⟩

/-- Witness for C8 amended: deleting a registered node X, then observing
that a REGISTER of X against the resulting blocked state fails and changes
nothing. -/
theorem delete_node_amended_witness :
    (("X" : String) ≠ "" ∧
      ((CState.mk [("X", testNode "X" 100 0 0 50 "active")] [] []
        []).nodes.map Prod.fst).Nodup) ∧
    ((handleDeleteNode (CState.mk [("X", testNode "X" 100 0 0 50 "active")]
        [] [] []) (some "X")).1.status = "OK" ∧
      dictGet (handleDeleteNode (CState.mk
        [("X", testNode "X" 100 0 0 50 "active")] [] [] [])
        (some "X")).2.nodes "X" = none ∧
      "X" ∈ (handleDeleteNode (CState.mk
        [("X", testNode "X" 100 0 0 50 "active")] [] [] [])
        (some "X")).2.blocked_nodes ∧
      ((dictGet (CState.mk [("X", testNode "X" 100 0 0 50 "active")] [] []
          []).nodes "X").isSome →
        "X" ∈ (handleDeleteNode (CState.mk
          [("X", testNode "X" 100 0 0 50 "active")] [] [] [])
          (some "X")).2.forced_offline) ∧
      (∀ st2 : CState, "X" ∈ st2.blocked_nodes →
        ∀ (now : Nat) (host : String) (port : Nat) (cpu mem stor bw :
            Option Int),
          (handleRegister now st2 "X" host port cpu mem stor bw).1.status =
            "ERROR" ∧
          (handleRegister now st2 "X" host port cpu mem stor bw).2 = st2)) :=
  ⟨⟨by decide, by decide⟩,
    delete_node_amended (CState.mk [("X", testNode "X" 100 0 0 50 "active")]
      [] [] []) "X" (by decide) (by decide)⟩

/-! ### Claim C9: replication scheduling precondition -/

/-- Count of registry entries whose status is active, as computed by
_handle_get_stats. -/
def activeNodeCount (nodes : List (String × NodeInfo)) : Nat :=
  (nodes.filter (fun p => p.2.status = "active")).length

/-- C9 fails as stated: _schedule_file_upload gates replication on
len(self.nodes) >= 2, the number of REGISTERED nodes, not active ones.
With registered nodes A (inactive, the owner) and B (active) the cluster
has only one active node, yet scheduling is not a no-op: it adds B as a
replica and increments the used_storage of B. -/
theorem schedule_replication_counterexample :
    activeNodeCount [("A", testNode "A" 100 0 0 0 "inactive"),
      ("B", testNode "B" 100 0 0 50 "active")] = 1 ∧
    "B" ∈ (scheduleFileUpload
      [("A", testNode "A" 100 0 0 0 "inactive"),
       ("B", testNode "B" 100 0 0 50 "active")]
      (mkFileInfoDefault "f" "x.bin" 10 "A" ["A"] 0)).2.replica_nodes ∧
    dictGet (scheduleFileUpload
      [("A", testNode "A" 100 0 0 0 "inactive"),
       ("B", testNode "B" 100 0 0 50 "active")]
      (mkFileInfoDefault "f" "x.bin" 10 "A" ["A"] 0)).1 "B" =
      some (testNode "B" 100 10 0 50 "active") :=
  ⟨by decide, by decide, by decide⟩

/-- C9 amended: replication scheduling requires at least
min_nodes_for_replication = 2 REGISTERED nodes, counted regardless of
status; with fewer than 2 registered nodes it adds no replicas and changes
no node's used_storage, leaving a single-node cluster's file un-replicated;
is_uploaded is set to true in every case, in particular when replication
runs. -/
theorem schedule_replication_amended (nodes : List (String × NodeInfo))
    (fi : FileInfo) :
    minNodesForReplication = 2 ∧
    (nodes.length < minNodesForReplication →
      (scheduleFileUpload nodes fi).1 = nodes ∧
      (scheduleFileUpload nodes fi).2 = { fi with is_uploaded := true }) ∧
    (minNodesForReplication ≤ nodes.length →
      (scheduleFileUpload nodes fi).2.is_uploaded = true ∧
      (scheduleFileUpload nodes fi).2.replica_nodes =
        (fi.replica_nodes ++ selectReplicaNodes nodes fi.owner_node
          defaultReplicationFactor).dedup) ∧
    (scheduleFileUpload nodes fi).2.is_uploaded = true := by
  refine ⟨rfl, ?_, ?_, ?_⟩
  · intro hlt
    have hneg : ¬ minNodesForReplication ≤ nodes.length := by omega
    simp only [scheduleFileUpload, if_neg hneg]
    exact ⟨by trivial, by trivial⟩
  · intro hge
    simp only [scheduleFileUpload, if_pos hge]
    exact ⟨by trivial, by trivial⟩
  · by_cases hge : minNodesForReplication ≤ nodes.length
    · simp only [scheduleFileUpload, if_pos hge]
    · simp only [scheduleFileUpload, if_neg hge]

/-- Witness for C9 amended: a single-node cluster keeps the file
un-replicated and untouched apart from is_uploaded. -/
theorem schedule_replication_amended_witness :
    (([("A", testNode "A" 100 0 0 50 "active")] :
        List (String × NodeInfo)).length < minNodesForReplication) ∧
    ((scheduleFileUpload [("A", testNode "A" 100 0 0 50 "active")]
        (mkFileInfoDefault "f" "x.bin" 10 "A" ["A"] 0)).1 =
      [("A", testNode "A" 100 0 0 50 "active")] ∧
    (scheduleFileUpload [("A", testNode "A" 100 0 0 50 "active")]
        (mkFileInfoDefault "f" "x.bin" 10 "A" ["A"] 0)).2 =
      { mkFileInfoDefault "f" "x.bin" 10 "A" ["A"] 0 with
        is_uploaded := true }) :=
  ⟨by decide,
    (schedule_replication_amended [("A", testNode "A" 100 0 0 50 "active")]
      (mkFileInfoDefault "f" "x.bin" 10 "A" ["A"] 0)).2.1 (by decide)⟩

/-! ### Claim C10: non-negativity of used_storage and active_transfers -/

/-- Closed set of controller operations, mirroring the _process_message
dispatch (the read-only actions STATUS_REQUEST, LIST_FILES, GET_NODES,
GET_STATS and the no-op UPLOAD_REQUEST return data without mutating state
and are omitted), plus one pass of the background liveness sweep. -/
inductive Msg where
  | register (node_id host : String) (port : Nat)
      (cpu mem stor bw : Option Int)
  | heartbeat (node_id : String) (hb_used hb_transfers : Option Int)
  | fileCreated (node_id f_id f_name : String) (f_size : Int)
      (f_owner : String)
  | downloadRequest (node_id file_id : String)
  | transferComplete (node_id : String) (file_id : Option String)
      (transfer_type : String)
  | forceOffline (node_id : String)
  | deleteNode (node_id : Option String)
  | unblockNode (node_id : Option String)
  | deleteFile (file_id : Option String)
  | sweep

/-- One controller operation as a state transition. -/
def step (now : Nat) (st : CState) : Msg → Response × CState
  | .register nid host port cpu mem stor bw =>
    handleRegister now st nid host port cpu mem stor bw
  | .heartbeat nid u t => handleHeartbeat now st nid u t
  | .fileCreated nid fid fname fsize fowner =>
    handleFileCreated now st nid fid fname fsize fowner
  | .downloadRequest nid fid => handleDownloadRequest st nid fid
  | .transferComplete nid fid tt => handleTransferComplete st nid fid tt
  | .forceOffline nid => handleForceOffline now st nid
  | .deleteNode nid => handleDeleteNode st nid
  | .unblockNode nid => handleUnblockNode st nid
  | .deleteFile fid => handleDeleteFile st fid
  | .sweep => (ackResp, (heartbeatSweep now st).1)

/-- Sizes carried by FILE_CREATED messages are lengths of byte payloads
and are therefore non-negative in every run of the system. -/
def msgSizeOK : Msg → Prop
  | .fileCreated _ _ _ fsize _ => 0 ≤ fsize
  | _ => True

def NodeGood (n : NodeInfo) : Prop :=
  0 ≤ n.used_storage ∧ 0 ≤ n.active_transfers

def FileGood (fi : FileInfo) : Prop := 0 ≤ fi.file_size

/-- Resource invariant of claim C10: every registry entry has non-negative
used_storage and active_transfers, and every catalog entry a non-negative
size. -/
def InvGood (st : CState) : Prop :=
  (∀ p ∈ st.nodes, NodeGood p.2) ∧ ∀ q ∈ st.files, FileGood q.2

theorem mem_dictInsert {α : Type} (l : List (String × α)) (k : String)
    (v : α) (p : String × α) (hp : p ∈ dictInsert l k v) :
    p ∈ l ∨ p = (k, v) := by
  induction l with
  | nil =>
    simp only [dictInsert, List.mem_singleton] at hp
    exact Or.inr hp
  | cons q rest ih =>
    by_cases h : q.1 = k
    · simp only [dictInsert, if_pos h] at hp
      rcases List.mem_cons.mp hp with rfl | h2
      · exact Or.inr rfl
      · exact Or.inl (List.mem_cons_of_mem _ h2)
    · simp only [dictInsert, if_neg h] at hp
      rcases List.mem_cons.mp hp with rfl | h2
      · exact Or.inl (List.mem_cons_self _ _)
      · rcases ih h2 with h3 | h3
        · exact Or.inl (List.mem_cons_of_mem _ h3)
        · exact Or.inr h3

theorem mem_dictUpdate {α : Type} (l : List (String × α)) (k : String)
    (f : α → α) (p : String × α) (hp : p ∈ dictUpdate l k f) :
    p ∈ l ∨ ∃ v, (k, v) ∈ l ∧ p = (k, f v) := by
  induction l with
  | nil => cases hp
  | cons q rest ih =>
    by_cases h : q.1 = k
    · simp only [dictUpdate, if_pos h] at hp
      rcases List.mem_cons.mp hp with rfl | h2
      · exact Or.inr ⟨q.2, by rw [← h]; exact List.mem_cons_self q rest, rfl⟩
      · exact Or.inl (List.mem_cons_of_mem _ h2)
    · simp only [dictUpdate, if_neg h] at hp
      rcases List.mem_cons.mp hp with rfl | h2
      · exact Or.inl (List.mem_cons_self _ _)
      · rcases ih h2 with h3 | ⟨v, hv, h4⟩
        · exact Or.inl (List.mem_cons_of_mem _ h3)
        · exact Or.inr ⟨v, List.mem_cons_of_mem _ hv, h4⟩

theorem mem_dictErase {α : Type} (l : List (String × α)) (k : String)
    (p : String × α) (hp : p ∈ dictErase l k) : p ∈ l := by
  induction l with
  | nil => cases hp
  | cons q rest ih =>
    by_cases h : q.1 = k
    · simp only [dictErase, if_pos h] at hp
      exact List.mem_cons_of_mem _ hp
    · simp only [dictErase, if_neg h] at hp
      rcases List.mem_cons.mp hp with rfl | h2
      · exact List.mem_cons_self _ _
      · exact List.mem_cons_of_mem _ (ih h2)

theorem update_preserves {α : Type} (P : α → Prop) (f : α → α)
    (hf : ∀ v, P v → P (f v)) (d : List (String × α)) (k : String)
    (hd : ∀ p ∈ d, P p.2) : ∀ p ∈ dictUpdate d k f, P p.2 := by
  intro p hp
  rcases mem_dictUpdate d k f p hp with h | ⟨v, hv, rfl⟩
  · exact hd p h
  · exact hf v (hd (k, v) hv)

theorem foldl_update_preserves {α : Type} (P : α → Prop) (f : α → α)
    (hf : ∀ v, P v → P (f v)) (ks : List String) :
    ∀ d : List (String × α), (∀ p ∈ d, P p.2) →
      ∀ p ∈ ks.foldl (fun ns x => dictUpdate ns x f) d, P p.2 := by
  induction ks with
  | nil => intro d hd; exact hd
  | cons k rest ih =>
    intro d hd
    simp only [List.foldl_cons]
    exact ih (dictUpdate d k f) (update_preserves P f hf d k hd)

theorem computeUsedStorage_nonneg (files : List (String × FileInfo))
    (nid : String) (h : ∀ q ∈ files, FileGood q.2) :
    0 ≤ computeUsedStorage files nid := by
  rw [computeUsedStorage_eq]
  apply List.sum_nonneg
  intro x hx
  rcases List.mem_map.mp hx with ⟨q, hq, rfl⟩
  exact h q (List.mem_of_mem_filter hq)

theorem scheduleFileUpload_size (nodes : List (String × NodeInfo))
    (fi : FileInfo) :
    (scheduleFileUpload nodes fi).2.file_size = fi.file_size := by
  unfold scheduleFileUpload
  dsimp only
  split <;> rfl

theorem scheduleFileUpload_nodes_good (nodes : List (String × NodeInfo))
    (fi : FileInfo) (hs : 0 ≤ fi.file_size)
    (h : ∀ p ∈ nodes, NodeGood p.2) :
    ∀ p ∈ (scheduleFileUpload nodes fi).1, NodeGood p.2 := by
  unfold scheduleFileUpload
  dsimp only
  split
  · apply foldl_update_preserves NodeGood _ _ _ nodes h
    intro v hv
    exact ⟨add_nonneg hv.1 hs, hv.2⟩
  · exact h

theorem register_invariant (now : Nat) (st : CState) (nid host : String)
    (port : Nat) (cpu mem stor bw : Option Int) (h : InvGood st) :
    InvGood (handleRegister now st nid host port cpu mem stor bw).2 := by
  obtain ⟨hn, hf⟩ := h
  match cpu, mem, stor, bw with
  | some c, some m, some s, some b =>
    by_cases hbl : nid ∈ st.blocked_nodes
    · simp only [handleRegister, if_pos hbl]
      exact ⟨hn, hf⟩
    · simp only [handleRegister, if_neg hbl]
      refine ⟨?_, hf⟩
      intro p hp
      rcases mem_dictInsert _ _ _ p hp with h2 | rfl
      · exact hn p h2
      · exact ⟨computeUsedStorage_nonneg st.files nid hf, le_refl 0⟩
  | none, _, _, _ => exact ⟨hn, hf⟩
  | some _, none, _, _ => exact ⟨hn, hf⟩
  | some _, some _, none, _ => exact ⟨hn, hf⟩
  | some _, some _, some _, none => exact ⟨hn, hf⟩

theorem heartbeat_invariant (now : Nat) (st : CState) (nid : String)
    (u t : Option Int) (h : InvGood st) :
    InvGood (handleHeartbeat now st nid u t).2 := by
  obtain ⟨hn, hf⟩ := h
  cases hget : dictGet st.nodes nid with
  | none =>
    simp only [handleHeartbeat, hget]
    exact ⟨hn, hf⟩
  | some n0 =>
    simp only [handleHeartbeat, hget]
    by_cases hfo : nid ∈ st.forced_offline
    · rw [if_pos hfo]
      exact ⟨hn, hf⟩
    · rw [if_neg hfo]
      refine ⟨?_, hf⟩
      apply update_preserves NodeGood _ ?_ st.nodes nid hn
      intro v hv
      obtain ⟨hv1, hv2⟩ := hv
      rcases u with _ | uv <;> rcases t with _ | tv <;> dsimp only <;>
        split <;> exact ⟨by dsimp only; omega, by dsimp only; omega⟩

theorem file_created_invariant (now : Nat) (st : CState)
    (nid fid fname : String) (fsize : Int) (fowner : String)
    (hsz : 0 ≤ fsize) (h : InvGood st) :
    InvGood (handleFileCreated now st nid fid fname fsize fowner).2 := by
  obtain ⟨hn, hf⟩ := h
  have hfr : (mkFileInfoDefault fid fname fsize fowner [fowner]
      now).file_size = fsize := rfl
  simp only [handleFileCreated]
  constructor
  · apply scheduleFileUpload_nodes_good
    · rw [hfr]
      exact hsz
    · apply update_preserves NodeGood _ ?_ st.nodes nid hn
      intro v hv
      exact ⟨add_nonneg hv.1 (by rw [hfr]; exact hsz), hv.2⟩
  · intro q hq
    rcases mem_dictInsert _ _ _ q hq with h2 | rfl
    · exact hf q h2
    · show FileGood (scheduleFileUpload _ _).2
      unfold FileGood
      rw [scheduleFileUpload_size, hfr]
      exact hsz

theorem download_invariant (st : CState) (req fid : String)
    (h : InvGood st) : InvGood (handleDownloadRequest st req fid).2 := by
  obtain ⟨hn, hf⟩ := h
  cases hfi : dictGet st.files fid with
  | none =>
    simp only [handleDownloadRequest, hfi]
    exact ⟨hn, hf⟩
  | some fi =>
    simp only [handleDownloadRequest, hfi]
    cases hsrc : selectBestSource (onlineReplicas st fi) with
    | none => exact ⟨hn, hf⟩
    | some src =>
      dsimp only
      refine ⟨?_, hf⟩
      have h1 : ∀ p ∈ dictUpdate st.nodes src.1 (fun n =>
          { n with active_transfers := n.active_transfers + 1 }),
          NodeGood p.2 :=
        update_preserves _ _
          (fun v hv => ⟨hv.1, add_nonneg hv.2 zero_le_one⟩) st.nodes src.1 hn
      split
      · exact update_preserves _ _
          (fun v hv => ⟨hv.1, add_nonneg hv.2 zero_le_one⟩) _ req h1
      · exact h1

theorem transfer_invariant (st : CState) (nid : String)
    (fido : Option String) (tt : String) (h : InvGood st) :
    InvGood (handleTransferComplete st nid fido tt).2 := by
  obtain ⟨hn, hf⟩ := h
  unfold handleTransferComplete
  set nodes1 := dictUpdate st.nodes nid (fun n =>
      { n with active_transfers := max 0 (n.active_transfers - 1) })
    with hnodes1
  have h1 : ∀ p ∈ nodes1, NodeGood p.2 := by
    rw [hnodes1]
    exact update_preserves _ _ (fun v hv => ⟨hv.1, le_max_left 0 _⟩)
      st.nodes nid hn
  dsimp only
  split
  · cases fido with
    | none => exact ⟨h1, hf⟩
    | some fid =>
      cases hfi : dictGet st.files fid with
      | none =>
        simp only [hfi]
        exact ⟨h1, hf⟩
      | some fi =>
        have hfg : FileGood fi := hf (fid, fi) (dictGet_mem _ _ _ hfi)
        simp only [hfi]
        cases hng : dictGet nodes1 nid with
        | none =>
          simp only [hng]
          exact ⟨h1, hf⟩
        | some n1 =>
          simp only [hng]
          constructor
          · exact update_preserves _ _
              (fun v hv => ⟨add_nonneg hv.1 hfg, hv.2⟩) _ nid h1
          · intro q hq
            rcases mem_dictInsert _ _ _ q hq with h2 | rfl
            · exact hf q h2
            · show FileGood (if nid ∈ fi.replica_nodes then fi
                else { fi with
                  replica_nodes := fi.replica_nodes ++ [nid] })
              split
              · exact hfg
              · exact hfg
  · exact ⟨h1, hf⟩

theorem force_offline_invariant (now : Nat) (st : CState) (nid : String)
    (h : InvGood st) : InvGood (handleForceOffline now st nid).2 := by
  obtain ⟨hn, hf⟩ := h
  cases hget : dictGet st.nodes nid with
  | none =>
    simp only [handleForceOffline, hget]
    exact ⟨hn, hf⟩
  | some n0 =>
    simp only [handleForceOffline, hget]
    split
    · exact ⟨update_preserves _ _ (fun v hv => ⟨hv.1, hv.2⟩) st.nodes nid hn,
        hf⟩
    · exact ⟨update_preserves _ _ (fun v hv => ⟨hv.1, hv.2⟩) st.nodes nid hn,
        hf⟩

theorem delete_node_invariant (st : CState) (nido : Option String)
    (h : InvGood st) : InvGood (handleDeleteNode st nido).2 := by
  obtain ⟨hn, hf⟩ := h
  cases nido with
  | none => exact ⟨hn, hf⟩
  | some nid =>
    by_cases hq : nid = ""
    · simp only [handleDeleteNode, if_pos hq]
      exact ⟨hn, hf⟩
    · simp only [handleDeleteNode, if_neg hq]
      split
      · exact ⟨fun p hp => hn p (mem_dictErase _ _ p hp), hf⟩
      · exact ⟨hn, hf⟩

theorem unblock_invariant (st : CState) (nido : Option String)
    (h : InvGood st) : InvGood (handleUnblockNode st nido).2 := by
  obtain ⟨hn, hf⟩ := h
  cases nido with
  | none => exact ⟨hn, hf⟩
  | some nid =>
    by_cases hq : nid = ""
    · simp only [handleUnblockNode, if_pos hq]
      exact ⟨hn, hf⟩
    · simp only [handleUnblockNode, if_neg hq]
      exact ⟨hn, hf⟩

theorem delete_file_invariant (st : CState) (fido : Option String)
    (h : InvGood st) : InvGood (handleDeleteFile st fido).2 := by
  obtain ⟨hn, hf⟩ := h
  cases fido with
  | none => exact ⟨hn, hf⟩
  | some fid =>
    by_cases hq : fid = ""
    · simp only [handleDeleteFile, if_pos hq]
      exact ⟨hn, hf⟩
    · simp only [handleDeleteFile, if_neg hq]
      cases hfi : dictGet st.files fid with
      | none => exact ⟨hn, hf⟩
      | some fi =>
        dsimp only
        refine ⟨?_, fun q hq2 => hf q (mem_dictErase _ _ q hq2)⟩
        apply foldl_update_preserves NodeGood _ ?_ fi.replica_nodes st.nodes
          hn
        intro v hv
        exact ⟨le_max_left 0 _, hv.2⟩

theorem sweep_invariant (now : Nat) (st : CState) (h : InvGood st) :
    InvGood (heartbeatSweep now st).1 := by
  obtain ⟨hn, hf⟩ := h
  refine ⟨?_, hf⟩
  intro p hp
  rcases List.mem_map.mp hp with ⟨q, hq, rfl⟩
  have := hn q hq
  unfold sweepNode
  split
  · exact ⟨this.1, this.2⟩
  · exact this

/-- C10: for every node in the registry, used_storage >= 0 and
active_transfers >= 0 is an invariant preserved by every controller
operation, given the catalog size invariant and non-negative message sizes
that the system maintains; HEARTBEAT clamps numerically reported
used_storage and active_transfers at zero and leaves the stored values
unchanged when no numeric value is reported (modelled as none),
TRANSFER_COMPLETE floors the active_transfers decrement at zero, and
DELETE_FILE floors each used_storage decrement at zero. -/
theorem resource_invariant (now : Nat) (st : CState) (m : Msg)
    (hinv : InvGood st) (hm : msgSizeOK m) :
    InvGood (step now st m).2 ∧
    (∀ nid n, dictGet st.nodes nid = some n → nid ∉ st.forced_offline →
      (∀ u t : Int, ∃ n2,
        dictGet (handleHeartbeat now st nid (some u)
          (some t)).2.nodes nid = some n2 ∧
        n2.used_storage = max 0 u ∧ n2.active_transfers = max 0 t) ∧
      (∃ n3, dictGet (handleHeartbeat now st nid none none).2.nodes nid =
        some n3 ∧ n3.used_storage = n.used_storage ∧
        n3.active_transfers = n.active_transfers)) ∧
    (∀ nid n tt, dictGet st.nodes nid = some n →
      ∃ n4, dictGet (handleTransferComplete st nid none tt).2.nodes nid =
        some n4 ∧ n4.active_transfers = max 0 (n.active_transfers - 1)) ∧
    (∀ fid fi nid n, fid ≠ "" → dictGet st.files fid = some fi →
      fi.replica_nodes.Nodup → nid ∈ fi.replica_nodes →
      dictGet st.nodes nid = some n →
      ∃ n5, dictGet (handleDeleteFile st (some fid)).2.nodes nid =
        some n5 ∧
        n5.used_storage = max 0 (n.used_storage - fi.file_size)) := by
  refine ⟨?_, ?_, ?_, ?_⟩
  · cases m with
    | register nid host port cpu mem stor bw =>
      exact register_invariant now st nid host port cpu mem stor bw hinv
    | heartbeat nid u t => exact heartbeat_invariant now st nid u t hinv
    | fileCreated nid fid fname fsize fowner =>
      exact file_created_invariant now st nid fid fname fsize fowner hm hinv
    | downloadRequest nid fid => exact download_invariant st nid fid hinv
    | transferComplete nid fid tt =>
      exact transfer_invariant st nid fid tt hinv
    | forceOffline nid => exact force_offline_invariant now st nid hinv
    | deleteNode nid => exact delete_node_invariant st nid hinv
    | unblockNode nid => exact unblock_invariant st nid hinv
    | deleteFile fid => exact delete_file_invariant st fid hinv
    | sweep => exact sweep_invariant now st hinv
  · intro nid n hget hforced
    constructor
    · intro u t
      by_cases hst : n.status = "inactive"
      · refine Exists.intro
          { n with
            last_seen := now
            used_storage := max 0 u
            active_transfers := max 0 t
            status := "active" } ⟨?_, rfl, rfl⟩
        simp only [handleHeartbeat, hget, if_neg hforced]
        rw [dictGet_update_self, hget, Option.map_some']
        rw [if_pos hst]
      · refine Exists.intro
          { n with
            last_seen := now
            used_storage := max 0 u
            active_transfers := max 0 t } ⟨?_, rfl, rfl⟩
        simp only [handleHeartbeat, hget, if_neg hforced]
        rw [dictGet_update_self, hget, Option.map_some']
        rw [if_neg hst]
    · by_cases hst : n.status = "inactive"
      · refine Exists.intro
          { n with last_seen := now, status := "active" } ⟨?_, rfl, rfl⟩
        simp only [handleHeartbeat, hget, if_neg hforced]
        rw [dictGet_update_self, hget, Option.map_some']
        rw [if_pos hst]
      · refine Exists.intro { n with last_seen := now } ⟨?_, rfl, rfl⟩
        simp only [handleHeartbeat, hget, if_neg hforced]
        rw [dictGet_update_self, hget, Option.map_some']
        rw [if_neg hst]
  · intro nid n tt hget
    refine Exists.intro
      { n with active_transfers := max 0 (n.active_transfers - 1) }
      ⟨?_, rfl⟩
    unfold handleTransferComplete
    dsimp only
    split
    · rw [dictGet_update_self, hget]
      rfl
    · rw [dictGet_update_self, hget]
      rfl
  · intro fid fi nid n hne hfi hnd hmem hget
    refine Exists.intro
      { n with used_storage := max 0 (n.used_storage - fi.file_size) }
      ⟨?_, rfl⟩
    simp only [handleDeleteFile, if_neg hne, hfi]
    rw [dictGet_foldl_update_mem _ _ _ _ hnd hmem, hget]
    rfl

/-- Witness for C10 on a one-node one-file state processing a FILE_CREATED
message of positive size. -/
theorem resource_invariant_witness :
    (InvGood (CState.mk [("N1", testNode "N1" 100 7 1 40 "active")]
        [("f1", mkFileInfoDefault "f1" "a" 3 "N1" ["N1"] 0)] [] []) ∧
      msgSizeOK (Msg.fileCreated "N1" "f2" "b" 5 "N1")) ∧
    (InvGood (step 50 (CState.mk
        [("N1", testNode "N1" 100 7 1 40 "active")]
        [("f1", mkFileInfoDefault "f1" "a" 3 "N1" ["N1"] 0)] [] [])
        (Msg.fileCreated "N1" "f2" "b" 5 "N1")).2 ∧
      (∀ nid n, dictGet (CState.mk
          [("N1", testNode "N1" 100 7 1 40 "active")]
          [("f1", mkFileInfoDefault "f1" "a" 3 "N1" ["N1"] 0)] []
          []).nodes nid = some n →
        nid ∉ (CState.mk [("N1", testNode "N1" 100 7 1 40 "active")]
          [("f1", mkFileInfoDefault "f1" "a" 3 "N1" ["N1"] 0)] []
          []).forced_offline →
        (∀ u t : Int, ∃ n2,
          dictGet (handleHeartbeat 50 (CState.mk
            [("N1", testNode "N1" 100 7 1 40 "active")]
            [("f1", mkFileInfoDefault "f1" "a" 3 "N1" ["N1"] 0)] [] [])
            nid (some u) (some t)).2.nodes nid = some n2 ∧
          n2.used_storage = max 0 u ∧ n2.active_transfers = max 0 t) ∧
        (∃ n3, dictGet (handleHeartbeat 50 (CState.mk
            [("N1", testNode "N1" 100 7 1 40 "active")]
            [("f1", mkFileInfoDefault "f1" "a" 3 "N1" ["N1"] 0)] [] [])
            nid none none).2.nodes nid = some n3 ∧
          n3.used_storage = n.used_storage ∧
          n3.active_transfers = n.active_transfers)) ∧
      (∀ nid n tt, dictGet (CState.mk
          [("N1", testNode "N1" 100 7 1 40 "active")]
          [("f1", mkFileInfoDefault "f1" "a" 3 "N1" ["N1"] 0)] []
          []).nodes nid = some n →
        ∃ n4, dictGet (handleTransferComplete (CState.mk
            [("N1", testNode "N1" 100 7 1 40 "active")]
            [("f1", mkFileInfoDefault "f1" "a" 3 "N1" ["N1"] 0)] [] [])
            nid none tt).2.nodes nid = some n4 ∧
          n4.active_transfers = max 0 (n.active_transfers - 1)) ∧
      (∀ fid fi nid n, fid ≠ "" → dictGet (CState.mk
          [("N1", testNode "N1" 100 7 1 40 "active")]
          [("f1", mkFileInfoDefault "f1" "a" 3 "N1" ["N1"] 0)] []
          []).files fid = some fi →
        fi.replica_nodes.Nodup → nid ∈ fi.replica_nodes →
        dictGet (CState.mk [("N1", testNode "N1" 100 7 1 40 "active")]
          [("f1", mkFileInfoDefault "f1" "a" 3 "N1" ["N1"] 0)] []
          []).nodes nid = some n →
        ∃ n5, dictGet (handleDeleteFile (CState.mk
            [("N1", testNode "N1" 100 7 1 40 "active")]
            [("f1", mkFileInfoDefault "f1" "a" 3 "N1" ["N1"] 0)] [] [])
            (some fid)).2.nodes nid = some n5 ∧
          n5.used_storage = max 0 (n.used_storage - fi.file_size))) := by
  have hinv : InvGood (CState.mk [("N1", testNode "N1" 100 7 1 40 "active")]
      [("f1", mkFileInfoDefault "f1" "a" 3 "N1" ["N1"] 0)] [] []) := by
    simp only [InvGood, NodeGood, FileGood]
    decide
  have hm : msgSizeOK (Msg.fileCreated "N1" "f2" "b" 5 "N1") := by
    simp only [msgSizeOK]
    decide
  exact ⟨⟨hinv, hm⟩, resource_invariant 50 (CState.mk
    [("N1", testNode "N1" 100 7 1 40 "active")]
    [("f1", mkFileInfoDefault "f1" "a" 3 "N1" ["N1"] 0)] [] [])
    (Msg.fileCreated "N1" "f2" "b" 5 "N1") hinv hm⟩

end CloudStore
